import Mathlib

/-!
Verification development for the SIPROQUIM txt-conversion RPA repository.

Strings manipulated by the Python code are embedded as lists of characters
(`Str`).  Dictionaries holding the extracted record are embedded as a
structure whose fields are `Option Str` (a missing key and a key holding
Python `None` behave identically through `registro.get(...)` followed by
normalisation, so both are `none`).
-/

set_option maxRecDepth 4000

abbrev Str := List Char

/-- `str.strip()` restricted to ASCII whitespace as produced by the pipeline. -/
def espacoBranco (c : Char) : Bool :=
  c = ' ' || c = '\t' || c = '\n' || c = '\r' || c = '\x0b' || c = '\x0c'

/-- Python `str.strip()`: drop whitespace from both ends. -/
def aparar (s : Str) : Str :=
  ((s.dropWhile espacoBranco).reverse.dropWhile espacoBranco).reverse

/-- Uppercasing for the characters that occur in this pipeline (ASCII plus the
accented vowels appearing in the Portuguese labels). -/
def maiuscula (c : Char) : Char :=
  if c = 'á' then 'Á' else if c = 'é' then 'É' else if c = 'í' then 'Í'
  else if c = 'ó' then 'Ó' else if c = 'ú' then 'Ú' else if c = 'ã' then 'Ã'
  else if c = 'õ' then 'Õ' else if c = 'â' then 'Â' else if c = 'ê' then 'Ê'
  else if c = 'ô' then 'Ô' else if c = 'ç' then 'Ç' else c.toUpper

/-- The null-like placeholder words recognised by `_normalizar_texto`. -/
def listaNulos : List Str :=
  ["NONE".toList, "NULL".toList, "N/A".toList, "NA".toList, "NAN".toList]

/-- `ValidadorCampos._normalizar_texto` (validador_campos.py lines 59-67) and
the identical `ProcessadorValidacaoIntegrada._normalizar_texto`
(processador_validacao_integrada.py lines 74-82): `None` becomes `""`; the
value is stripped; a stripped value equal (case-insensitively) to one of the
null-like words becomes `""`. -/
def normalizarTexto (valor : Option Str) : Str :=
  match valor with
  | none => []
  | some s =>
    let texto := aparar s
    if texto.map maiuscula ∈ listaNulos then [] else texto

/-- `''.join(filter(str.isdigit, texto))`. -/
def somenteDigitos (s : Str) : Str := s.filter Char.isDigit

/-- `_normalizar_documento` (validador_campos.py lines 69-73 and
processador_validacao_integrada.py lines 84-88). -/
def normalizarDocumento (valor : Option Str) : Str :=
  somenteDigitos (normalizarTexto valor)

/-- Numeric value of an ASCII digit character. -/
def valorDigito (c : Char) : Nat := c.toNat - 48

/-- Modelled from the spec: the "Module 11" check-digit computation of
section 4.4 / glossary — a digit-weighted sum modulo 11, with remainders 0
and 1 mapped to check digit 0 and any other remainder `r` giving `11 - r`
(pinned down by the spec's worked examples `39053344705` and
`11.222.333/0001-81`).  The implementation lives in
`src/gerador/validators.py`, which is not part of the provided sources. -/
def digitoVerificador (ds : List Nat) (pesos : List Nat) : Nat :=
  let r := (List.zipWith (· * ·) ds pesos).sum % 11
  if r < 2 then 0 else 11 - r

/-- Modelled from the spec: `validar_cpf` from `src/gerador/validators.py`
(absent from the sources).  Spec section 4.4: "for an 11-digit personal id,
two check digits are each [computed by the Module 11 scheme] of the
preceding digits"; validation recomputes both check digits and compares
them with the trailing two digits. -/
def validar_cpf (s : Str) : Bool :=
  s.length = 11 && s.all Char.isDigit &&
    (let ds := s.map valorDigito
     let dv1 := digitoVerificador (ds.take 9) [10, 9, 8, 7, 6, 5, 4, 3, 2]
     let dv2 := digitoVerificador (ds.take 10) [11, 10, 9, 8, 7, 6, 5, 4, 3, 2]
     ds.get? 9 = some dv1 && ds.get? 10 = some dv2)

/-- Modelled from the spec: `validar_cnpj` from `src/gerador/validators.py`
(absent from the sources).  Spec section 4.4: "for a 14-digit company id,
the same scheme applies with a different, longer weight table and an extra
leading digit included for the second check digit." -/
def validar_cnpj (s : Str) : Bool :=
  s.length = 14 && s.all Char.isDigit &&
    (let ds := s.map valorDigito
     let dv1 := digitoVerificador (ds.take 12) [5, 4, 3, 2, 9, 8, 7, 6, 5, 4, 3, 2]
     let dv2 := digitoVerificador (ds.take 13) [6, 5, 4, 3, 2, 9, 8, 7, 6, 5, 4, 3, 2]
     ds.get? 12 = some dv1 && ds.get? 13 = some dv2)

/-! ## validacao_constants.py -/

def NF_NUMERO_MIN_DIGITOS : Nat := 4
def NF_NUMERO_MAX_DIGITOS : Nat := 6
def CTE_NUMERO_MIN_DIGITOS : Nat := 1
def CTE_NUMERO_MAX_DIGITOS : Nat := 9
def CNPJ_TAMANHO : Nat := 14
def NOME_MIN_CARACTERES : Nat := 3
def RECEBEDOR_MIN_CARACTERES : Nat := 3

def ConfigValidacao.failFast : Bool := false

def ConfigValidacao.validarDataCalendario : Bool := true

/-- Semantics of Python `PATTERN.match(s)` for an anchored pattern `^...$`
whose body cannot match a newline: the body must match all of `s`, or all of
`s` minus one final newline (re's `$` also matches just before a trailing
newline). -/
def matchAncorado (p : Str → Bool) (s : Str) : Bool :=
  if s.getLast? = some '\n' then p s.dropLast else p s

/-- `PATTERN_NF_NUMERO` = `^\d{4,6}$`. -/
def matchNfNumero : Str → Bool :=
  matchAncorado fun s =>
    decide (NF_NUMERO_MIN_DIGITOS ≤ s.length) && decide (s.length ≤ NF_NUMERO_MAX_DIGITOS) &&
      s.all Char.isDigit

/-- `PATTERN_CTE_NUMERO` = `^\d{1,9}$`. -/
def matchCteNumero : Str → Bool :=
  matchAncorado fun s =>
    decide (CTE_NUMERO_MIN_DIGITOS ≤ s.length) && decide (s.length ≤ CTE_NUMERO_MAX_DIGITOS) &&
      s.all Char.isDigit

/-- `PATTERN_DATA_BR` = `^\d{1,2}/\d{1,2}/\d{4}$`. -/
def matchDataBr : Str → Bool :=
  matchAncorado fun s =>
    match s.splitOn '/' with
    | [d, m, y] =>
      decide (1 ≤ d.length) && decide (d.length ≤ 2) && d.all Char.isDigit &&
        decide (1 ≤ m.length) && decide (m.length ≤ 2) && m.all Char.isDigit &&
        decide (y.length = 4) && y.all Char.isDigit
    | _ => false

/-- Digit string to number (used for the calendar check). -/
def paraNat (s : Str) : Nat := s.foldl (fun a c => 10 * a + valorDigito c) 0

def bissexto (y : Nat) : Bool := y % 4 = 0 && (y % 100 ≠ 0 || y % 400 = 0)

def diasNoMes (m y : Nat) : Nat :=
  if m = 2 then (if bissexto y then 29 else 28)
  else if m = 4 || m = 6 || m = 9 || m = 11 then 30
  else 31

/-- `datetime.strptime(data_str, '%d/%m/%Y')` succeeds: the date exists in
the proleptic Gregorian calendar, with year between 1 and 9999 (the pattern
already forces a 4-digit year, so only year 0 can fail the range check). -/
def dataCalendarioValida (s : Str) : Bool :=
  match s.splitOn '/' with
  | [d, m, y] =>
    let dn := paraNat d
    let mn := paraNat m
    let yn := paraNat y
    decide (1 ≤ yn) && decide (1 ≤ mn) && decide (mn ≤ 12) &&
      decide (1 ≤ dn) && decide (dn ≤ diasNoMes mn yn)
  | _ => false

/-! ## validador_campos.py -/

inductive Severidade
  | CRITICO | ERRO | AVISO
  deriving DecidableEq, Repr

inductive Campo
  | nfNumeroC | nfDataC | cteNumeroC | cteDataC
  | cnpjEmitenteC | cnpjContratanteC | cnpjDestinatarioC
  | nomeEmitenteC | nomeContratanteC | nomeDestinatarioC | recebedorC
  deriving DecidableEq, Repr

/-- The distinct error messages of `MensagensErro`, with their format-string
payloads. -/
inductive Mensagem
  | nfNumeroVazio
  | nfNumeroInvalido (valor : Str)
  | nfDataVazia
  | nfDataFormatoInvalido (valor : Str)
  | nfDataInvalida (valor : Str)
  | cteNumeroVazio
  | cteNumeroInvalido (valor : Str)
  | cteDataVazia
  | cteDataFormatoInvalido (valor : Str)
  | cteDataInvalida (valor : Str)
  | cnpjVazio (campo : Campo)
  | emitenteComoCpf (valor : Str)
  | emitenteTamanhoInvalido (tamanho : Nat)
  | cpfModulo11Falhou (campo : Campo) (valor : Str)
  | cnpjModulo11Falhou (campo : Campo) (valor : Str)
  | cnpjTamanhoInvalido (campo : Campo) (tamanho : Nat)
  | nomeVazio (campo : Campo)
  | nomeMuitoCurto (campo : Campo) (valor : Str)
  | recebedorVazio
  | recebedorMuitoCurto (valor : Str)
  deriving DecidableEq, Repr

structure ErroValidacao where
  campo : Campo
  mensagem : Mensagem
  valor : Str
  severidade : Severidade
  deriving DecidableEq, Repr

/-- The extracted record: each field is `none` when the key is missing or
holds Python `None`, and `some s` when it holds the string `s`. -/
structure Registro where
  nf_numero : Option Str
  nf_data : Option Str
  cte_numero : Option Str
  cte_data : Option Str
  emitente_cnpj : Option Str
  emitente_nome : Option Str
  contratante_cnpj : Option Str
  contratante_nome : Option Str
  destinatario_cnpj : Option Str
  destinatario_nome : Option Str
  recebedor : Option Str
  deriving DecidableEq, Repr

def registroVazio : Registro :=
  ⟨none, none, none, none, none, none, none, none, none, none, none⟩

/-- `_validar_nf_numero` on the already-normalised value. -/
def validarNfNumeroNorm (nfNum : Str) : Option ErroValidacao :=
  if nfNum = [] then some ⟨.nfNumeroC, .nfNumeroVazio, [], .CRITICO⟩
  else if matchNfNumero nfNum = false then
    some ⟨.nfNumeroC, .nfNumeroInvalido nfNum, nfNum, .CRITICO⟩
  else none

def validarNfNumero (v : Option Str) : Option ErroValidacao :=
  validarNfNumeroNorm (normalizarTexto v)

/-- `_validar_cte_numero` on the already-normalised value.  Both branches
construct the error with severity `'ERRO'` (validador_campos.py lines
182-199). -/
def validarCteNumeroNorm (cteNum : Str) : Option ErroValidacao :=
  if cteNum = [] then some ⟨.cteNumeroC, .cteNumeroVazio, [], .ERRO⟩
  else if matchCteNumero cteNum = false then
    some ⟨.cteNumeroC, .cteNumeroInvalido cteNum, cteNum, .ERRO⟩
  else none

def validarCteNumero (v : Option Str) : Option ErroValidacao :=
  validarCteNumeroNorm (normalizarTexto v)

/-- `_validar_data_generica` on the already-normalised value. -/
def validarDataGenericaNorm (dataStr : Str) (campoNome : Campo)
    (msgVazia : Mensagem) (msgFormato msgInvalida : Str → Mensagem)
    (sevVazio sevFormato : Severidade) : Option ErroValidacao :=
  if dataStr = [] then some ⟨campoNome, msgVazia, [], sevVazio⟩
  else if matchDataBr dataStr = false then
    some ⟨campoNome, msgFormato dataStr, dataStr, sevFormato⟩
  else if ConfigValidacao.validarDataCalendario && dataCalendarioValida dataStr = false then
    some ⟨campoNome, msgInvalida dataStr, dataStr, .ERRO⟩
  else none

def validarNfData (v : Option Str) : Option ErroValidacao :=
  validarDataGenericaNorm (normalizarTexto v) .nfDataC
    .nfDataVazia .nfDataFormatoInvalido .nfDataInvalida .CRITICO .CRITICO

def validarCteData (v : Option Str) : Option ErroValidacao :=
  validarDataGenericaNorm (normalizarTexto v) .cteDataC
    .cteDataVazia .cteDataFormatoInvalido .cteDataInvalida .ERRO .ERRO

/-- `_validar_cnpj_emitente` on the digit-normalised value. -/
def validarCnpjEmitenteNorm (cnpj : Str) : Option ErroValidacao :=
  if cnpj = [] then some ⟨.cnpjEmitenteC, .cnpjVazio .cnpjEmitenteC, [], .CRITICO⟩
  else if cnpj.length = 11 && validar_cpf cnpj then
    some ⟨.cnpjEmitenteC, .emitenteComoCpf cnpj, cnpj, .CRITICO⟩
  else if cnpj.length ≠ 14 then
    some ⟨.cnpjEmitenteC, .emitenteTamanhoInvalido cnpj.length, cnpj, .CRITICO⟩
  else if validar_cnpj cnpj = false then
    some ⟨.cnpjEmitenteC, .cnpjModulo11Falhou .cnpjEmitenteC cnpj, cnpj, .CRITICO⟩
  else none

def validarCnpjEmitente (v : Option Str) : Option ErroValidacao :=
  validarCnpjEmitenteNorm (normalizarDocumento v)

/-- `_validar_cnpj` (contractor/recipient) on the digit-normalised value. -/
def validarCnpjCampoNorm (cnpj : Str) (campoNome : Campo) : Option ErroValidacao :=
  if cnpj = [] then some ⟨campoNome, .cnpjVazio campoNome, [], .CRITICO⟩
  else if cnpj.length = 11 then
    (if validar_cpf cnpj = false then
      some ⟨campoNome, .cpfModulo11Falhou campoNome cnpj, cnpj, .CRITICO⟩
    else none)
  else if cnpj.length = 14 then
    (if validar_cnpj cnpj = false then
      some ⟨campoNome, .cnpjModulo11Falhou campoNome cnpj, cnpj, .CRITICO⟩
    else none)
  else some ⟨campoNome, .cnpjTamanhoInvalido campoNome cnpj.length, cnpj, .CRITICO⟩

def validarCnpjCampo (v : Option Str) (campoNome : Campo) : Option ErroValidacao :=
  validarCnpjCampoNorm (normalizarDocumento v) campoNome

/-- `_validar_nome` on the already-normalised value. -/
def validarNomeNorm (nome : Str) (campoNome : Campo) : Option ErroValidacao :=
  if nome = [] then some ⟨campoNome, .nomeVazio campoNome, [], .ERRO⟩
  else if nome.length < NOME_MIN_CARACTERES then
    some ⟨campoNome, .nomeMuitoCurto campoNome nome, nome, .ERRO⟩
  else none

def validarNome (v : Option Str) (campoNome : Campo) : Option ErroValidacao :=
  validarNomeNorm (normalizarTexto v) campoNome

/-- `_validar_recebedor` on the already-normalised value. -/
def validarRecebedorNorm (recebedor : Str) : Option ErroValidacao :=
  if recebedor = [] then some ⟨.recebedorC, .recebedorVazio, [], .CRITICO⟩
  else if recebedor.length < RECEBEDOR_MIN_CARACTERES then
    some ⟨.recebedorC, .recebedorMuitoCurto recebedor, recebedor, .ERRO⟩
  else none

def validarRecebedor (v : Option Str) : Option ErroValidacao :=
  validarRecebedorNorm (normalizarTexto v)

/-- The contractor/recipient loop of `_validar_todos_cnpjs` (with its
fail-fast `break`). -/
def validarCnpjsContrDest (ff : Bool) (r : Registro) : List ErroValidacao :=
  match validarCnpjCampo r.contratante_cnpj .cnpjContratanteC with
  | some e =>
    if ff then [e]
    else e :: (validarCnpjCampo r.destinatario_cnpj .cnpjDestinatarioC).toList
  | none => (validarCnpjCampo r.destinatario_cnpj .cnpjDestinatarioC).toList

/-- `_validar_todos_cnpjs`. -/
def validarTodosCnpjs (ff : Bool) (r : Registro) : List ErroValidacao :=
  match validarCnpjEmitente r.emitente_cnpj with
  | some e => if ff then [e] else e :: validarCnpjsContrDest ff r
  | none => validarCnpjsContrDest ff r

/-- The contractor/recipient tail of the `_validar_todos_nomes` loop. -/
def validarNomesRestantes (ff : Bool) (r : Registro) : List ErroValidacao :=
  match validarNome r.contratante_nome .nomeContratanteC with
  | some e =>
    if ff then [e]
    else e :: (validarNome r.destinatario_nome .nomeDestinatarioC).toList
  | none => (validarNome r.destinatario_nome .nomeDestinatarioC).toList

/-- `_validar_todos_nomes`. -/
def validarTodosNomes (ff : Bool) (r : Registro) : List ErroValidacao :=
  match validarNome r.emitente_nome .nomeEmitenteC with
  | some e => if ff then [e] else e :: validarNomesRestantes ff r
  | none => validarNomesRestantes ff r

/-- The accumulation pattern of `validar_registro_completo`: append each
step's errors in order; under fail-fast, return as soon as a step produced
an error. -/
def coletarFalhaRapida (ff : Bool) : List (List ErroValidacao) → List ErroValidacao
  | [] => []
  | es :: resto => if ff && !es.isEmpty then es else es ++ coletarFalhaRapida ff resto

/-- `ValidadorCampos.validar_registro_completo`. -/
def validarRegistroCompleto (ff : Bool) (r : Registro) : List ErroValidacao :=
  coletarFalhaRapida ff
    [(validarNfNumero r.nf_numero).toList,
     (validarNfData r.nf_data).toList,
     (validarCteNumero r.cte_numero).toList,
     (validarCteData r.cte_data).toList,
     validarTodosCnpjs ff r,
     validarTodosNomes ff r,
     (validarRecebedor r.recebedor).toList]

/-! ## validador_estrutura_pdf.py -/

inductive LabelPdf
  | EMITENTE | DEST_ROT | CONTRATANTE | CTE | CNPJ_CPF
  deriving DecidableEq, Repr

/-- `comecaCom pre s`: `s` starts with `pre`. -/
def comecaCom : Str → Str → Bool
  | [], _ => true
  | _ :: _, [] => false
  | a :: pre, b :: s => a = b && comecaCom pre s

/-- `sub in s` (Python substring containment). -/
def contemSub (sub : Str) : Str → Bool
  | [] => comecaCom sub []
  | c :: resto => comecaCom sub (c :: resto) || contemSub sub resto

/-- `p` matches at some position of `s` (`re.search`). -/
def qualquerPosicao (p : Str → Bool) : Str → Bool
  | [] => p []
  | c :: resto => p (c :: resto) || qualquerPosicao p resto

/-- One position of `CT-?E|N[º°]\s*CT` (on uppercased text). -/
def casaCtePos (s : Str) : Bool :=
  comecaCom "CTE".toList s || comecaCom "CT-E".toList s ||
    (match s with
     | 'N' :: c :: resto =>
       (c = 'º' || c = '°') && comecaCom "CT".toList (resto.dropWhile espacoBranco)
     | _ => false)

/-- One position of `A[/\s]?B`: the word `pre`, optionally one slash or
whitespace character, then the word `suf`. -/
def casaComSeparadorOpcional (pre suf : Str) (s : Str) : Bool :=
  comecaCom (pre ++ suf) s ||
    (comecaCom pre s &&
      match s.drop pre.length with
      | c :: resto => (c = '/' || espacoBranco c) && comecaCom suf resto
      | [] => false)

/-- One position of `CNPJ[/\s]?CPF|CPF[/\s]?CNPJ|DOCUMENTO`. -/
def casaCnpjCpfPos (s : Str) : Bool :=
  casaComSeparadorOpcional "CNPJ".toList "CPF".toList s ||
    casaComSeparadorOpcional "CPF".toList "CNPJ".toList s ||
    comecaCom "DOCUMENTO".toList s

/-- `re.search(pattern, texto, re.IGNORECASE)` for each entry of
`LABELS_OBRIGATORIOS_PDF` (validacao_constants.py lines 56-62), after
uppercasing the page text. -/
def buscaLabel (l : LabelPdf) (texto : Str) : Bool :=
  let t := texto.map maiuscula
  match l with
  | .EMITENTE => contemSub "EMITENTE".toList t
  | .DEST_ROT => contemSub "DESTINATÁRIO".toList t || contemSub "DESTINATARIO".toList t
  | .CONTRATANTE =>
    contemSub "CONTRANE".toList t || contemSub "CONTRATE".toList t ||
      contemSub "CONTRANTE".toList t
  | .CTE => qualquerPosicao casaCtePos t
  | .CNPJ_CPF => qualquerPosicao casaCnpjCpfPos t

/-- The required labels, in the dictionary's insertion order. -/
def labelsObrigatoriosPdf : List LabelPdf :=
  [.EMITENTE, .DEST_ROT, .CONTRATANTE, .CTE, .CNPJ_CPF]

/-- The `labels_faltando` list built by `validar_estrutura`. -/
def labelsFaltando (texto : Str) : List LabelPdf :=
  labelsObrigatoriosPdf.filter fun l => !(buscaLabel l texto)

/-- `ValidadorEstruturaPDF.validar_estrutura`: raises `ValueError` naming the
missing labels (embedded as `Except.error`), otherwise returns `True`. -/
def validarEstrutura (texto : Str) : Except (List LabelPdf) Bool :=
  let falt := labelsFaltando texto
  if falt.isEmpty then .ok true else .error falt

/-! ## campo_extractor.py — noisy-OCR identifier recovery -/

def CNPJ_VAZIO : Str := List.replicate CNPJ_TAMANHO '0'

/-- `_MAPA_OCR_DIGITOS` (campo_extractor.py lines 41-54). -/
def mapaOcrDigitos (c : Char) : Char :=
  if c = 'O' || c = 'Q' || c = 'D' then '0'
  else if c = 'I' || c = 'L' || c = '|' || c = '!' then '1'
  else if c = 'Z' then '2'
  else if c = 'S' then '5'
  else if c = 'B' then '8'
  else if c = 'G' then '6'
  else if c = 'T' then '7'
  else c

/-- Keep digits and the three visual separators, blank out everything else
(campo_extractor.py lines 84-87). -/
def filtraSeparadores (c : Char) : Char :=
  if c.isDigit || c = '.' || c = '/' || c = '-' then c else ' '

/-- `re.sub(r'\s+', ' ', s).strip()` followed by `.split(' ')`: after
`filtraSeparadores` the only whitespace left is `' '`, so the collapsed,
stripped text splits into exactly the nonempty space-separated chunks. -/
def separaTokens (s : Str) : List Str :=
  (s.splitOn ' ').filter fun t => !t.isEmpty

/-- The normalised token stream of `_extrair_cnpj_ocr_ruidoso` (lines 81-95):
uppercase, map OCR look-alikes to digits, keep digits/separators, split. -/
def tokensOcr (texto : Str) : List Str :=
  separaTokens (((texto.map maiuscula).map mapaOcrDigitos).map filtraSeparadores)

/-- `str.strip(chars)` for the punctuation set `".,;:"`. -/
def classePontuacao (c : Char) : Bool :=
  c = '.' || c = ',' || c = ';' || c = ':'

def apararEm (cls : Char → Bool) (s : Str) : Str :=
  ((s.dropWhile cls).reverse.dropWhile cls).reverse

def pegaDigitos (s : Str) : Str × Str :=
  (s.takeWhile Char.isDigit, s.dropWhile Char.isDigit)

/-- `padrao_token.match` for `^(\d{2,8})\.(\d{3,8})\.(\d{3,8})/(\d{4,8})-(\d{2,8})$`:
the token must be five digit groups joined by `.`, `.`, `/`, `-`, with the
group sizes in range (maximal digit runs coincide with the regex's
backtracking semantics because each group is followed by a non-digit
separator). -/
def casaTokenCnpj (s : Str) : Option (Str × Str × Str × Str × Str) :=
  let (g1, r1) := pegaDigitos s
  match r1 with
  | '.' :: r1' =>
    let (g2, r2) := pegaDigitos r1'
    match r2 with
    | '.' :: r2' =>
      let (g3, r3) := pegaDigitos r2'
      match r3 with
      | '/' :: r3' =>
        let (g4, r4) := pegaDigitos r3'
        match r4 with
        | '-' :: r4' =>
          let (g5, r5) := pegaDigitos r4'
          if r5 = [] &&
              decide (2 ≤ g1.length) && decide (g1.length ≤ 8) &&
              decide (3 ≤ g2.length) && decide (g2.length ≤ 8) &&
              decide (3 ≤ g3.length) && decide (g3.length ≤ 8) &&
              decide (4 ≤ g4.length) && decide (g4.length ≤ 8) &&
              decide (2 ≤ g5.length) && decide (g5.length ≤ 8) then
            some (g1, g2, g3, g4, g5)
          else none
        | _ => none
      | _ => none
    | _ => none
  | _ => none

/-- The per-candidate admission checks of lines 103-114: the separator-count
pre-check, the punctuation strip (the whitespace-collapsing `re.sub` is the
identity because tokens contain no whitespace), the token-shape match and the
(redundant) group-size re-check already enforced by `casaTokenCnpj`. -/
def analisaCandidato (tc : Str) : Option (Str × Str × Str × Str × Str) :=
  if decide (tc.count '.' < 2) || !(tc.contains '/') || !(tc.contains '-') then none
  else casaTokenCnpj (apararEm classePontuacao tc)

/-- `itertools.combinations`: all size-`k` subsequences, in lexicographic
order of the chosen index tuples. -/
def combinacoes : Nat → Str → List Str
  | 0, _ => [[]]
  | _ + 1, [] => []
  | k + 1, c :: resto => (combinacoes k resto).map (fun t => c :: t) ++ combinacoes (k + 1) resto

/-- `_subsequencias` (campo_extractor.py lines 57-69). -/
def subsequencias (valor : Str) (tamanho limite : Nat) : List Str :=
  if valor.length < tamanho then []
  else if valor.length = tamanho then [valor]
  else (combinacoes tamanho valor).take limite

def LIMITE_TENTATIVAS : Nat := 45000

/-- The five nested assembly loops (lines 123-129) enumerate the cartesian
product of the group subsequences in lexicographic order, assembling
`p1 ++ p2 ++ p3 ++ p4 ++ p5` for each tuple. -/
def montagens (p1 p2 p3 p4 p5 : List Str) : List Str :=
  p1.flatMap fun a =>
    p2.flatMap fun b =>
      p3.flatMap fun c =>
        p4.flatMap fun d =>
          p5.map fun e => a ++ b ++ c ++ d ++ e

/-- All candidates assembled from one matched token, respecting the
`tentativas` counter: the counter is reset to 0 for this token candidate
(line 122) and the nested breaks stop after candidate number 45000, so
exactly the first `min 45000 N` products are assembled. -/
def tentativasGrupos : Str × Str × Str × Str × Str → List Str
  | (g1, g2, g3, g4, g5) =>
    (montagens (subsequencias g1 2 28) (subsequencias g2 3 56) (subsequencias g3 3 56)
        (subsequencias g4 4 70) (subsequencias g5 2 28)).take LIMITE_TENTATIVAS

/-- The `for token_candidato in candidatos_token` loop: a candidate that
fails the admission checks is skipped (`continue`); after a candidate whose
assembly loop exhausted the 45000 ceiling, the remaining candidates of this
token are skipped (the final `if tentativas >= 45000: break`, which exits
only this inner loop — the outer token loop continues). -/
def processaCandidatos : List Str → List Str
  | [] => []
  | tc :: resto =>
    match analisaCandidato tc with
    | none => processaCandidatos resto
    | some gs =>
      let asm := tentativasGrupos gs
      if LIMITE_TENTATIVAS ≤ asm.length then asm else asm ++ processaCandidatos resto

/-- `candidatos_token` for one token (lines 97-100): the token itself, plus
the token glued to the previous token when the token starts with `'.'` and
the previous token is a nonempty digit run. -/
def candidatosDoToken (anterior : Option Str) (token : Str) : List Str :=
  [token] ++
    (match anterior with
     | some prev =>
       if comecaCom ['.'] token && !prev.isEmpty && prev.all Char.isDigit then [prev ++ token]
       else []
     | none => [])

/-- The outer `for idx, token in enumerate(tokens)` loop, threading the
previous token. -/
def percorreTokens : Option Str → List Str → List Str
  | _, [] => []
  | anterior, token :: resto =>
    processaCandidatos (candidatosDoToken anterior token) ++ percorreTokens (some token) resto

/-- Every candidate identifier assembled over the entire input, in assembly
order. -/
def montagensTotais (texto : Str) : List Str :=
  percorreTokens none (tokensOcr texto)

/-- The total value of the `tentativas` counter summed over the whole input:
each assembled candidate is one attempt. -/
def totalTentativasOcr (texto : Str) : Nat :=
  (montagensTotais texto).length

/-- `set.add`: the set of valid candidates, as a duplicate-free list in
first-insertion order. -/
def insereUnico (l : List Str) (c : Str) : List Str :=
  if c ∈ l then l else l ++ [c]

/-- The `candidatos_validos` set accumulated across the entire input. -/
def candidatosValidosOcr (texto : Str) : List Str :=
  (montagensTotais texto).foldl (fun s c => if validar_cnpj c then insereUnico s c else s) []

/-- `_extrair_cnpj_ocr_ruidoso` (campo_extractor.py lines 72-147).  The
early `return None` for empty input / empty filtered text coincides with the
final size test on the (then empty) set. -/
def extrairCnpjOcrRuidoso (texto : Str) : Option Str :=
  if texto = [] then none
  else
    let cv := candidatosValidosOcr texto
    if cv.length = 1 then cv.head? else none

/-! ## processador_validacao_integrada.py -/

/-- Field selectors for the record keys accessed through `registro.get`. -/
inductive CampoSel
  | nfNumeroS | nfDataS | cteNumeroS | cteDataS
  | emitenteCnpjS | emitenteNomeS | contratanteCnpjS | contratanteNomeS
  | destinatarioCnpjS | destinatarioNomeS | recebedorS
  deriving DecidableEq, Repr

def lerCampo (r : Registro) : CampoSel → Option Str
  | .nfNumeroS => r.nf_numero
  | .nfDataS => r.nf_data
  | .cteNumeroS => r.cte_numero
  | .cteDataS => r.cte_data
  | .emitenteCnpjS => r.emitente_cnpj
  | .emitenteNomeS => r.emitente_nome
  | .contratanteCnpjS => r.contratante_cnpj
  | .contratanteNomeS => r.contratante_nome
  | .destinatarioCnpjS => r.destinatario_cnpj
  | .destinatarioNomeS => r.destinatario_nome
  | .recebedorS => r.recebedor

def gravarCampo (r : Registro) (f : CampoSel) (v : Option Str) : Registro :=
  match f with
  | .nfNumeroS => { r with nf_numero := v }
  | .nfDataS => { r with nf_data := v }
  | .cteNumeroS => { r with cte_numero := v }
  | .cteDataS => { r with cte_data := v }
  | .emitenteCnpjS => { r with emitente_cnpj := v }
  | .emitenteNomeS => { r with emitente_nome := v }
  | .contratanteCnpjS => { r with contratante_cnpj := v }
  | .contratanteNomeS => { r with contratante_nome := v }
  | .destinatarioCnpjS => { r with destinatario_cnpj := v }
  | .destinatarioNomeS => { r with destinatario_nome := v }
  | .recebedorS => { r with recebedor := v }

/-- The three identifier/name roles of the correction engine. -/
inductive Papel
  | emitenteP | contratanteP | destinatarioP
  deriving DecidableEq, Repr

def campoCnpjDe : Papel → CampoSel
  | .emitenteP => .emitenteCnpjS
  | .contratanteP => .contratanteCnpjS
  | .destinatarioP => .destinatarioCnpjS

def campoNomeDe : Papel → CampoSel
  | .emitenteP => .emitenteNomeS
  | .contratanteP => .contratanteNomeS
  | .destinatarioP => .destinatarioNomeS

/-- Modelled from the spec (section 3, glossary): the NFD decomposition plus
removal of combining marks performed by `_normalizar_nome_chave` maps each
accented upper-case Latin letter to its base letter; `unicodedata` is not
re-implemented, only its effect on the letters this pipeline sees. -/
def removeDiacritico (c : Char) : Char :=
  if c = 'Á' || c = 'À' || c = 'Â' || c = 'Ã' || c = 'Ä' then 'A'
  else if c = 'É' || c = 'È' || c = 'Ê' || c = 'Ë' then 'E'
  else if c = 'Í' || c = 'Ì' || c = 'Î' || c = 'Ï' then 'I'
  else if c = 'Ó' || c = 'Ò' || c = 'Ô' || c = 'Õ' || c = 'Ö' then 'O'
  else if c = 'Ú' || c = 'Ù' || c = 'Û' || c = 'Ü' then 'U'
  else if c = 'Ç' then 'C'
  else c

def ehAlfaNum (c : Char) : Bool :=
  ('A' ≤ c && c ≤ 'Z') || ('0' ≤ c && c ≤ '9')

/-- `ProcessadorValidacaoIntegrada._normalizar_nome_chave` (lines 90-99):
null-normalise, uppercase, strip diacritics, replace runs of `[^A-Z0-9]`
with single spaces and trim (equivalently: join the maximal alphanumeric
runs with single spaces). -/
def normalizarNomeChave (valor : Option Str) : Str :=
  let texto := normalizarTexto valor
  if texto = [] then []
  else
    let t := (texto.map maiuscula).map removeDiacritico
    List.intercalate [' '] ((t.splitOnP fun c => !ehAlfaNum c).filter fun g => !g.isEmpty)

/-- `collections.Counter`: document → multiplicity, in first-insertion
order. -/
def incrementaContador (ctr : List (Str × Nat)) (doc : Str) : List (Str × Nat) :=
  match ctr with
  | [] => [(doc, 1)]
  | (d, n) :: resto =>
    if d = doc then (d, n + 1) :: resto else (d, n) :: incrementaContador resto doc

/-- `defaultdict(Counter)`: normalized name → Counter of documents, in
first-insertion order. -/
def incrementaIndice (idx : List (Str × List (Str × Nat))) (nome doc : Str) :
    List (Str × List (Str × Nat)) :=
  match idx with
  | [] => [(nome, [(doc, 1)])]
  | (n, ctr) :: resto =>
    if n = nome then (n, incrementaContador ctr doc) :: resto
    else (n, ctr) :: incrementaIndice resto nome doc

/-- The `self._indice_docs_por_nome` mapping, one sub-index per identifier
field. -/
structure IndiceDocs where
  emitenteIdx : List (Str × List (Str × Nat))
  contratanteIdx : List (Str × List (Str × Nat))
  destinatarioIdx : List (Str × List (Str × Nat))
  deriving DecidableEq, Repr

def indiceVazio : IndiceDocs := ⟨[], [], []⟩

def lerIndice (i : IndiceDocs) : Papel → List (Str × List (Str × Nat))
  | .emitenteP => i.emitenteIdx
  | .contratanteP => i.contratanteIdx
  | .destinatarioP => i.destinatarioIdx

def adicionaObservacao (i : IndiceDocs) (p : Papel) (nome doc : Str) : IndiceDocs :=
  match p with
  | .emitenteP => { i with emitenteIdx := incrementaIndice i.emitenteIdx nome doc }
  | .contratanteP => { i with contratanteIdx := incrementaIndice i.contratanteIdx nome doc }
  | .destinatarioP => { i with destinatarioIdx := incrementaIndice i.destinatarioIdx nome doc }

/-- The `campos` list of `_construir_indice_documentos`, in source order. -/
def papeisIndice : List Papel := [.emitenteP, .contratanteP, .destinatarioP]

/-- The inner loop of `_construir_indice_documentos` (lines 115-120). -/
def adicionaRegistroIndice (i : IndiceDocs) (r : Registro) : IndiceDocs :=
  papeisIndice.foldl
    (fun acc p =>
      let doc := normalizarDocumento (lerCampo r (campoCnpjDe p))
      let nome := normalizarNomeChave (lerCampo r (campoNomeDe p))
      if decide (doc.length = 14) && doc ≠ CNPJ_VAZIO && decide (8 ≤ nome.length) then
        adicionaObservacao acc p nome doc
      else acc)
    i

/-- `_construir_indice_documentos`. -/
def construirIndiceDocumentos (regs : List Registro) : IndiceDocs :=
  regs.foldl adicionaRegistroIndice indiceVazio

def procuraAssoc (idx : List (Str × List (Str × Nat))) (nome : Str) :
    Option (List (Str × Nat)) :=
  match idx with
  | [] => none
  | (n, ctr) :: resto => if n = nome then some ctr else procuraAssoc resto nome

/-- `candidatos.update(docs.keys())`. -/
def atualizaConjunto (acc : List Str) (chaves : List Str) : List Str :=
  chaves.foldl insereUnico acc

/-- The approximate-containment scan of `_buscar_documento_por_nome`
(lines 141-147): for each index entry whose name is substring-related to the
key, add its documents; stop early once more than one distinct candidate
accumulated. -/
def coletaCandidatos (nomeChave : Str) :
    List (Str × List (Str × Nat)) → List Str → List Str
  | [], acc => acc
  | (nomeIdx, docs) :: resto, acc =>
    let par :=
      if nomeChave.length ≤ nomeIdx.length then (nomeChave, nomeIdx) else (nomeIdx, nomeChave)
    if contemSub par.1 par.2 then
      let acc2 := atualizaConjunto acc (docs.map Prod.fst)
      if 1 < acc2.length then acc2 else coletaCandidatos nomeChave resto acc2
    else coletaCandidatos nomeChave resto acc

/-- Modelled from the spec: the external knowledge-base lookup contract of
section 6 (`base_conhecimento.py` is not part of the provided sources);
consulted, never written, by the correction engine. -/
structure BaseConhecimento where
  buscarCnpjPorNome : Str → Papel → Option Str
  buscarNomePorCnpj : Str → Option Str

/-- A knowledge base with no associations (every lookup misses). -/
def kbVazia : BaseConhecimento := ⟨fun _ _ => none, fun _ => none⟩

/-- `_buscar_documento_por_nome` (lines 124-160): exact in-batch match with
a unique document, else unique approximate containment match (only for keys
of length ≥ 12), else knowledge-base lookup scoped by field role. -/
def buscarDocumentoPorNome (idx : IndiceDocs) (kb : BaseConhecimento) (p : Papel)
    (nome : Str) : Option Str :=
  let nomeChave := normalizarNomeChave (some nome)
  if nomeChave.length < 8 then none
  else
    let indice := lerIndice idx p
    match procuraAssoc indice nomeChave with
    | some [(d, _)] => some d
    | _ =>
      let candidatos :=
        if 12 ≤ nomeChave.length then coletaCandidatos nomeChave indice [] else []
      match candidatos with
      | [d] => some d
      | _ => kb.buscarCnpjPorNome nomeChave p

/-- One iteration of the `for chave_cnpj, chave_nome, tipo_pessoa in campos`
loop of `_tentar_corrigir_dados` (lines 278-304): fill a missing document
from the name, then fill a missing name from a well-formed document.  The
Python truthiness tests `if doc_inferido:` / `if nome_base:` reject an empty
string as well as `None`. -/
def corrigePapel (idx : IndiceDocs) (kb : BaseConhecimento) (nf : Registro) (p : Papel) :
    Registro × Bool :=
  let chaveCnpj := campoCnpjDe p
  let chaveNome := campoNomeDe p
  let cnpj := normalizarDocumento (lerCampo nf chaveCnpj)
  let nome := normalizarTexto (lerCampo nf chaveNome)
  let passoDoc :=
    if (cnpj.isEmpty || cnpj = CNPJ_VAZIO) && decide (8 ≤ nome.length) then
      match buscarDocumentoPorNome idx kb p nome with
      | some doc =>
        if doc.isEmpty then (nf, cnpj, false)
        else (gravarCampo nf chaveCnpj (some doc), doc, true)
      | none => (nf, cnpj, false)
    else (nf, cnpj, false)
  match passoDoc with
  | (nf1, cnpj1, c1) =>
    if decide (cnpj1.length = 14) && decide (nome.length < 2) then
      match kb.buscarNomePorCnpj cnpj1 with
      | some nomeBase =>
        if nomeBase.isEmpty then (nf1, c1)
        else (gravarCampo nf1 chaveNome (some nomeBase), true)
      | none => (nf1, c1)
    else (nf1, c1)

/-- The `campos` list of `_tentar_corrigir_dados`, in source order. -/
def papeisCorrecao : List Papel := [.destinatarioP, .contratanteP, .emitenteP]

/-- `_tentar_corrigir_dados`. -/
def tentarCorrigirDados (idx : IndiceDocs) (kb : BaseConhecimento) (nf : Registro) :
    Registro × Bool :=
  papeisCorrecao.foldl
    (fun st p =>
      let r := corrigePapel idx kb st.1 p
      (r.1, st.2 || r.2))
    (nf, false)

/-- `_auditar_para_humano` (lines 308-380): counts the `registrar_ajuste`
events; entirely read-only on the record. -/
def auditarParaHumano (nf : Registro) : Nat :=
  let verif1 :=
    (([Papel.contratanteP, Papel.destinatarioP].filter fun p =>
        let doc := normalizarDocumento (lerCampo nf (campoCnpjDe p))
        decide (doc.length = 11) && validar_cpf doc)).length
  let verif2 :=
    (([Papel.destinatarioP, Papel.contratanteP, Papel.emitenteP].filter fun p =>
        let nome := normalizarTexto (lerCampo nf (campoNomeDe p))
        let cnpj := normalizarDocumento (lerCampo nf (campoCnpjDe p))
        !cnpj.isEmpty && (nome.isEmpty || decide (nome.length < 2)))).length
  let cnpjEmitente := normalizarDocumento nf.emitente_cnpj
  let verif3 :=
    if cnpjEmitente.isEmpty then 0
    else if decide (cnpjEmitente.length = 11) && validar_cpf cnpjEmitente then 1
    else if cnpjEmitente.length ≠ 14 then 1
    else if validar_cnpj cnpjEmitente = false then 1
    else 0
  verif1 + verif2 + verif3

structure EstatisticasProc where
  corrigidos : Nat
  comErros : Nat
  comErrosCriticos : Nat
  totalErros : Nat
  ajustesManuais : Nat
  deriving DecidableEq, Repr

def estatisticasZero : EstatisticasProc := ⟨0, 0, 0, 0, 0⟩

/-- The per-record loop of `filtrar_dados_validos` (lines 223-254): validate
(statistics only), attempt correction (mutating), audit, and append the
record unconditionally ("ETAPA 4: MANTÉM O REGISTRO"). -/
def processaRegistros (ff : Bool) (idx : IndiceDocs) (kb : BaseConhecimento) :
    List Registro → List Registro × EstatisticasProc
  | [] => ([], estatisticasZero)
  | nf :: resto =>
    let erros := validarRegistroCompleto ff nf
    let criticos := erros.filter fun e => e.severidade = Severidade.CRITICO
    let passo := tentarCorrigirDados idx kb nf
    let aj := auditarParaHumano passo.1
    let r := processaRegistros ff idx kb resto
    (passo.1 :: r.1,
     { corrigidos := (if passo.2 then 1 else 0) + r.2.corrigidos,
       comErros := (if erros.isEmpty then 0 else 1) + r.2.comErros,
       comErrosCriticos := (if criticos.isEmpty then 0 else 1) + r.2.comErrosCriticos,
       totalErros := erros.length + r.2.totalErros,
       ajustesManuais := aj + r.2.ajustesManuais })

/-- `ProcessadorValidacaoIntegrada.filtrar_dados_validos`: the per-batch
index is built from the incoming records, then every record is validated,
possibly corrected, audited and kept. -/
def filtrarDadosValidos (ff : Bool) (kb : BaseConhecimento) (regs : List Registro) :
    List Registro × EstatisticasProc :=
  processaRegistros ff (construirIndiceDocumentos regs) kb regs

/-! ## gerador/txt_parser.py -/

/-- Modelled from the spec: the fixed-width layout constants of
`src/gerador/layout_constants.py` (absent from the sources).  Spec section 6:
each record kind has a fixed total line length and fixed inclusive 1-based
column ranges per field; the concrete values are not given, so the parser is
parameterised over them. -/
structure LayoutPosicional where
  tnTamanhoTotal : Nat
  tnPosCnpjContratante : Nat × Nat
  tnPosNomeContratante : Nat × Nat
  tnPosNfNumero : Nat × Nat
  tnPosNfData : Nat × Nat
  tnPosCnpjOrigem : Nat × Nat
  tnPosNomeOrigem : Nat × Nat
  tnPosCnpjDestino : Nat × Nat
  tnPosNomeDestino : Nat × Nat
  tnPosLocalRetirada : Nat × Nat
  tnPosLocalEntrega : Nat × Nat
  ccTamanhoTotal : Nat
  ccPosCteNumero : Nat × Nat
  ccPosCteData : Nat × Nat
  ccPosDataRecebimento : Nat × Nat
  ccPosRecebedor : Nat × Nat

/-- The two record-kind prefixes (module docstring: layout EM/TN/CC; the
parser recognises TN and CC lines). -/
def TN_TIPO : Str := "TN".toList

def CC_TIPO : Str := "CC".toList

/-- `_slice_posicional`: Python `linha[inicio-1:fim]` for 1-based inclusive
positions. -/
def slicePosicional (linha : Str) (pos : Nat × Nat) : Str :=
  (linha.take pos.2).drop (pos.1 - 1)

/-- `str.ljust`: right-pad with spaces to the given width. -/
def ajustaEsquerda (linha : Str) (n : Nat) : Str :=
  linha ++ List.replicate (n - linha.length) ' '

structure RegistroTn where
  linhaNumero : Nat
  contratanteCnpj : Str
  contratanteNome : Str
  nfNumero : Str
  nfData : Str
  emitenteCnpj : Str
  emitenteNome : Str
  destinatarioCnpj : Str
  destinatarioNome : Str
  localRetirada : Str
  localEntrega : Str
  deriving DecidableEq, Repr

structure RegistroCc where
  linhaNumero : Nat
  cteNumero : Str
  cteData : Str
  dataRecebimento : Str
  recebedor : Str
  deriving DecidableEq, Repr

/-- `_parse_tn` (txt_parser.py lines 68-83): pad short lines to the TN total
length, then slice each fixed range.  Every operation is total, so the
`try`/`except` wrapper around the call can never take the exception
branch. -/
def parseTn (L : LayoutPosicional) (linha : Str) (numeroLinha : Nat) : RegistroTn :=
  let linhaNorm :=
    if L.tnTamanhoTotal ≤ linha.length then linha else ajustaEsquerda linha L.tnTamanhoTotal
  { linhaNumero := numeroLinha,
    contratanteCnpj := somenteDigitos (slicePosicional linhaNorm L.tnPosCnpjContratante),
    contratanteNome := aparar (slicePosicional linhaNorm L.tnPosNomeContratante),
    nfNumero := aparar (slicePosicional linhaNorm L.tnPosNfNumero),
    nfData := aparar (slicePosicional linhaNorm L.tnPosNfData),
    emitenteCnpj := somenteDigitos (slicePosicional linhaNorm L.tnPosCnpjOrigem),
    emitenteNome := aparar (slicePosicional linhaNorm L.tnPosNomeOrigem),
    destinatarioCnpj := somenteDigitos (slicePosicional linhaNorm L.tnPosCnpjDestino),
    destinatarioNome := aparar (slicePosicional linhaNorm L.tnPosNomeDestino),
    localRetirada := aparar (slicePosicional linhaNorm L.tnPosLocalRetirada),
    localEntrega := aparar (slicePosicional linhaNorm L.tnPosLocalEntrega) }

/-- `_parse_cc` (lines 86-95), same shape as `parseTn`. -/
def parseCc (L : LayoutPosicional) (linha : Str) (numeroLinha : Nat) : RegistroCc :=
  let linhaNorm :=
    if L.ccTamanhoTotal ≤ linha.length then linha else ajustaEsquerda linha L.ccTamanhoTotal
  { linhaNumero := numeroLinha,
    cteNumero := aparar (slicePosicional linhaNorm L.ccPosCteNumero),
    cteData := aparar (slicePosicional linhaNorm L.ccPosCteData),
    dataRecebimento := aparar (slicePosicional linhaNorm L.ccPosDataRecebimento),
    recebedor := aparar (slicePosicional linhaNorm L.ccPosRecebedor) }

structure ResultadoParse where
  tn : List RegistroTn
  cc : List RegistroCc
  invalidas : List (Nat × Str)
  deriving Repr

/-- The line loop of `parse_txt_siproquim` (lines 114-127): skip empty
lines, dispatch on the uppercased 2-character prefix, silently skip unknown
prefixes.  The `except` branches that would append a `{linha_numero,
motivo}` diagnostic are unreachable because `parseTn`/`parseCc` are total,
so no diagnostic is ever produced. -/
def parseLinhas (L : LayoutPosicional) : Nat → List Str → ResultadoParse
  | _, [] => ⟨[], [], []⟩
  | idx, linha :: resto =>
    let r := parseLinhas L (idx + 1) resto
    if linha.isEmpty then r
    else
      let prefixo := (linha.take 2).map maiuscula
      if prefixo = TN_TIPO then { r with tn := parseTn L linha idx :: r.tn }
      else if prefixo = CC_TIPO then { r with cc := parseCc L linha idx :: r.cc }
      else r

/-- `parse_txt_siproquim` on the decoded line list (line numbering starts at
1). -/
def parseTxtSiproquim (L : LayoutPosicional) (linhas : List Str) : ResultadoParse :=
  parseLinhas L 1 linhas

/-! ## Statement-support definitions -/

/-- A value the claim C9 calls null-like: Python `None`, or a string whose
stripped, uppercased text is one of the null placeholder words. -/
def valorNulo : Option Str → Prop
  | none => True
  | some s => (aparar s).map maiuscula ∈ listaNulos

/-- The "field is empty" error each sub-validator emits, with its severity
as constructed in the source. -/
def erroVazioDe : CampoSel → ErroValidacao
  | .nfNumeroS => ⟨.nfNumeroC, .nfNumeroVazio, [], .CRITICO⟩
  | .nfDataS => ⟨.nfDataC, .nfDataVazia, [], .CRITICO⟩
  | .cteNumeroS => ⟨.cteNumeroC, .cteNumeroVazio, [], .ERRO⟩
  | .cteDataS => ⟨.cteDataC, .cteDataVazia, [], .ERRO⟩
  | .emitenteCnpjS => ⟨.cnpjEmitenteC, .cnpjVazio .cnpjEmitenteC, [], .CRITICO⟩
  | .emitenteNomeS => ⟨.nomeEmitenteC, .nomeVazio .nomeEmitenteC, [], .ERRO⟩
  | .contratanteCnpjS => ⟨.cnpjContratanteC, .cnpjVazio .cnpjContratanteC, [], .CRITICO⟩
  | .contratanteNomeS => ⟨.nomeContratanteC, .nomeVazio .nomeContratanteC, [], .ERRO⟩
  | .destinatarioCnpjS => ⟨.cnpjDestinatarioC, .cnpjVazio .cnpjDestinatarioC, [], .CRITICO⟩
  | .destinatarioNomeS => ⟨.nomeDestinatarioC, .nomeVazio .nomeDestinatarioC, [], .ERRO⟩
  | .recebedorS => ⟨.recebedorC, .recebedorVazio, [], .CRITICO⟩

/-- The conditions under which the correction engine leaves a field's value
untouched: identifier fields whose digit-normalised value is neither empty
nor the all-zero placeholder; name fields whose null-normalised value has at
least 2 characters; every other field unconditionally. -/
def preservaCorrecao (r : Registro) : CampoSel → Prop
  | .emitenteCnpjS =>
    normalizarDocumento r.emitente_cnpj ≠ [] ∧ normalizarDocumento r.emitente_cnpj ≠ CNPJ_VAZIO
  | .contratanteCnpjS =>
    normalizarDocumento r.contratante_cnpj ≠ [] ∧
      normalizarDocumento r.contratante_cnpj ≠ CNPJ_VAZIO
  | .destinatarioCnpjS =>
    normalizarDocumento r.destinatario_cnpj ≠ [] ∧
      normalizarDocumento r.destinatario_cnpj ≠ CNPJ_VAZIO
  | .emitenteNomeS => 2 ≤ (normalizarTexto r.emitente_nome).length
  | .contratanteNomeS => 2 ≤ (normalizarTexto r.contratante_nome).length
  | .destinatarioNomeS => 2 ≤ (normalizarTexto r.destinatario_nome).length
  | _ => True

/-- A well-formed in-batch-index document: exactly the shape admitted by
`_construir_indice_documentos`. -/
def docBemFormado (d : Str) : Prop :=
  d.length = 14 ∧ d.all Char.isDigit = true ∧ d ≠ CNPJ_VAZIO

/-- All documents stored in one name-index are well formed. -/
def entradasBemFormadas (l : List (Str × List (Str × Nat))) : Prop :=
  ∀ par ∈ l, ∀ dn ∈ par.2, docBemFormado dn.1

/-- All three sub-indices hold only well-formed documents. -/
def indiceBemFormado (idx : IndiceDocs) : Prop :=
  ∀ p : Papel, entradasBemFormadas (lerIndice idx p)

/-- C5 counterexample batch: record A supplies the in-batch association. -/
def regC5A : Registro :=
  { registroVazio with
      destinatario_cnpj := some "11222333000181".toList,
      destinatario_nome := some "EMPRESA TESTE LTDA".toList }

/-- C5 counterexample batch: record B's recipient-identifier field holds the
non-empty string "abc". -/
def regC5B : Registro :=
  { registroVazio with
      destinatario_cnpj := some "abc".toList,
      destinatario_nome := some "EMPRESA TESTE LTDA".toList }

/-- C8 counterexample batch: the record carrying the identifier. -/
def regC8Z : Registro :=
  { registroVazio with
      destinatario_cnpj := some "11222333000181".toList,
      destinatario_nome := some "AAAAAAAAAAAA".toList }

/-- C8 counterexample batch: corrected on the first run via the containment
match against record Z's name. -/
def regC8Y : Registro :=
  { registroVazio with destinatario_nome := some "AAAAAAAAAAAA BBBBBBBBBBBB".toList }

/-- C8 counterexample batch: only correctable once record Y's filled
identifier has entered a rebuilt index. -/
def regC8X : Registro :=
  { registroVazio with destinatario_nome := some "BBBBBBBBBBBB".toList }

def loteC8 : List Registro := [regC8Z, regC8Y, regC8X]

/-- C3 counterexample: two tokens, each with all five digit groups of the
maximal size 8. -/
def tokenC3a : Str := "12345678.12345678.12345678/12345678-12345678".toList

def tokenC3b : Str := "23456789.12345678.12345678/12345678-12345678".toList

def textoC3 : Str :=
  "12345678.12345678.12345678/12345678-12345678 23456789.12345678.12345678/12345678-12345678".toList

/-- A concrete layout instance for the C10 witness. -/
def layoutTeste : LayoutPosicional :=
  { tnTamanhoTotal := 10,
    tnPosCnpjContratante := (1, 2), tnPosNomeContratante := (3, 4),
    tnPosNfNumero := (5, 6), tnPosNfData := (7, 8),
    tnPosCnpjOrigem := (1, 2), tnPosNomeOrigem := (3, 4),
    tnPosCnpjDestino := (5, 6), tnPosNomeDestino := (7, 8),
    tnPosLocalRetirada := (9, 10), tnPosLocalEntrega := (9, 10),
    ccTamanhoTotal := 8,
    ccPosCteNumero := (1, 2), ccPosCteData := (3, 4),
    ccPosDataRecebimento := (5, 6), ccPosRecebedor := (7, 8) }

/-- Concrete lines for the C10 witness. -/
def linhasTeste : List Str := ["TN12".toList, [], "CCab".toList, "ZZ99".toList]

/-! ## Helper lemmas -/

theorem digito_nao_espaco (c : Char) (h : c.isDigit = true) : espacoBranco c = false := by
  by_cases h1 : c = ' '
  · subst h1; simp at h
  by_cases h2 : c = '\t'
  · subst h2; simp at h
  by_cases h3 : c = '\n'
  · subst h3; simp at h
  by_cases h4 : c = '\r'
  · subst h4; simp at h
  by_cases h5 : c = '\x0b'
  · subst h5; simp at h
  by_cases h6 : c = '\x0c'
  · subst h6; simp at h
  simp [espacoBranco, h1, h2, h3, h4, h5, h6]

theorem dropWhile_digitos (s : Str) (h : s.all Char.isDigit = true) :
    s.dropWhile espacoBranco = s := by
  cases s with
  | nil => rfl
  | cons c resto =>
    simp only [List.all_cons, Bool.and_eq_true] at h
    simp [List.dropWhile_cons, digito_nao_espaco c h.1]

theorem aparar_digitos (s : Str) (h : s.all Char.isDigit = true) : aparar s = s := by
  have hrev : s.reverse.all Char.isDigit = true := by simpa using h
  unfold aparar
  rw [dropWhile_digitos s h, dropWhile_digitos s.reverse hrev, List.reverse_reverse]

theorem normalizarTexto_some (s : Str) :
    normalizarTexto (some s) =
      if (aparar s).map maiuscula ∈ listaNulos then [] else aparar s := rfl

theorem normalizarTexto_digitos (s : Str) (hd : s.all Char.isDigit = true)
    (hl : 4 < s.length) : normalizarTexto (some s) = s := by
  rw [normalizarTexto_some, aparar_digitos s hd]
  have : s.map maiuscula ∉ listaNulos := by
    intro hmem
    have hlen : (s.map maiuscula).length = s.length := by simp
    simp only [listaNulos, List.mem_cons, List.not_mem_nil, or_false] at hmem
    rcases hmem with h | h | h | h | h <;> (rw [h] at hlen; simp at hlen; omega)
  simp [this]

theorem normalizarDocumento_digitos (s : Str) (hd : s.all Char.isDigit = true)
    (hl : 4 < s.length) : normalizarDocumento (some s) = s := by
  unfold normalizarDocumento somenteDigitos
  rw [normalizarTexto_digitos s hd hl]
  exact List.filter_eq_self.mpr (by simpa [List.all_eq_true] using hd)

theorem somenteDigitos_all (s : Str) : (somenteDigitos s).all Char.isDigit = true := by
  simp only [somenteDigitos, List.all_eq_true]
  intro c hc
  exact (List.mem_filter.mp hc).2

/-- Each sub-validator only ever tags its own field. -/
theorem campo_validarNfNumero (v : Option Str) (e : ErroValidacao)
    (h : validarNfNumero v = some e) : e.campo = Campo.nfNumeroC := by
  unfold validarNfNumero validarNfNumeroNorm at h
  split at h
  · cases h; rfl
  · split at h
    · cases h; rfl
    · cases h

theorem campo_validarDataGenerica (d : Str) (cn : Campo) (mv : Mensagem)
    (mf mi : Str → Mensagem) (sv sf : Severidade) (e : ErroValidacao)
    (h : validarDataGenericaNorm d cn mv mf mi sv sf = some e) : e.campo = cn := by
  unfold validarDataGenericaNorm at h
  split at h
  · cases h; rfl
  · split at h
    · cases h; rfl
    · split at h
      · cases h; rfl
      · cases h

theorem campo_validarCteNumero (v : Option Str) (e : ErroValidacao)
    (h : validarCteNumero v = some e) : e.campo = Campo.cteNumeroC := by
  unfold validarCteNumero validarCteNumeroNorm at h
  split at h
  · cases h; rfl
  · split at h
    · cases h; rfl
    · cases h

theorem campo_validarCnpjEmitente (v : Option Str) (e : ErroValidacao)
    (h : validarCnpjEmitente v = some e) : e.campo = Campo.cnpjEmitenteC := by
  unfold validarCnpjEmitente validarCnpjEmitenteNorm at h
  split at h
  · cases h; rfl
  · split at h
    · cases h; rfl
    · split at h
      · cases h; rfl
      · split at h
        · cases h; rfl
        · cases h

theorem campo_validarCnpjCampo (v : Option Str) (cn : Campo) (e : ErroValidacao)
    (h : validarCnpjCampo v cn = some e) : e.campo = cn := by
  unfold validarCnpjCampo validarCnpjCampoNorm at h
  split at h
  · cases h; rfl
  · split at h
    · split at h
      · cases h; rfl
      · cases h
    · split at h
      · split at h
        · cases h; rfl
        · cases h
      · cases h; rfl

theorem campo_validarNome (v : Option Str) (cn : Campo) (e : ErroValidacao)
    (h : validarNome v cn = some e) : e.campo = cn := by
  unfold validarNome validarNomeNorm at h
  split at h
  · cases h; rfl
  · split at h
    · cases h; rfl
    · cases h

theorem campo_validarRecebedor (v : Option Str) (e : ErroValidacao)
    (h : validarRecebedor v = some e) : e.campo = Campo.recebedorC := by
  unfold validarRecebedor validarRecebedorNorm at h
  split at h
  · cases h; rfl
  · split at h
    · cases h; rfl
    · cases h

/-- Under the default non-fail-fast mode, the collected errors are exactly
the concatenation of all seven steps. -/
theorem validarTodosCnpjs_falso (r : Registro) :
    validarTodosCnpjs false r =
      (validarCnpjEmitente r.emitente_cnpj).toList ++
        (validarCnpjCampo r.contratante_cnpj .cnpjContratanteC).toList ++
        (validarCnpjCampo r.destinatario_cnpj .cnpjDestinatarioC).toList := by
  unfold validarTodosCnpjs validarCnpjsContrDest
  cases validarCnpjEmitente r.emitente_cnpj <;>
    cases validarCnpjCampo r.contratante_cnpj .cnpjContratanteC <;> simp

theorem validarTodosNomes_falso (r : Registro) :
    validarTodosNomes false r =
      (validarNome r.emitente_nome .nomeEmitenteC).toList ++
        (validarNome r.contratante_nome .nomeContratanteC).toList ++
        (validarNome r.destinatario_nome .nomeDestinatarioC).toList := by
  unfold validarTodosNomes validarNomesRestantes
  cases validarNome r.emitente_nome .nomeEmitenteC <;>
    cases validarNome r.contratante_nome .nomeContratanteC <;> simp

theorem validarRegistroCompleto_falso (r : Registro) :
    validarRegistroCompleto false r =
      (validarNfNumero r.nf_numero).toList ++ (validarNfData r.nf_data).toList ++
        (validarCteNumero r.cte_numero).toList ++ (validarCteData r.cte_data).toList ++
        validarTodosCnpjs false r ++ validarTodosNomes false r ++
        (validarRecebedor r.recebedor).toList := by
  simp [validarRegistroCompleto, coletarFalhaRapida]

theorem campo_validarNfData (v : Option Str) (e : ErroValidacao)
    (h : validarNfData v = some e) : e.campo = Campo.nfDataC := by
  unfold validarNfData at h
  exact campo_validarDataGenerica _ _ _ _ _ _ _ _ h

theorem campo_validarCteData (v : Option Str) (e : ErroValidacao)
    (h : validarCteData v = some e) : e.campo = Campo.cteDataC := by
  unfold validarCteData at h
  exact campo_validarDataGenerica _ _ _ _ _ _ _ _ h

/-- C1: a checksum-valid 11-digit personal id raises no CRITICAL error in
the contractor or recipient identifier field, but raises a CRITICAL
personal-id-in-company-field error in the emitter identifier field. -/
theorem c1_cpf_categoria (s : Str) (hd : s.all Char.isDigit = true)
    (hl : s.length = 11) (hv : validar_cpf s = true) (r : Registro) :
    (∀ e ∈ validarRegistroCompleto false { r with contratante_cnpj := some s },
        e.campo = Campo.cnpjContratanteC → e.severidade ≠ Severidade.CRITICO) ∧
    (∀ e ∈ validarRegistroCompleto false { r with destinatario_cnpj := some s },
        e.campo = Campo.cnpjDestinatarioC → e.severidade ≠ Severidade.CRITICO) ∧
    (∃ e ∈ validarRegistroCompleto false { r with emitente_cnpj := some s },
        e.campo = Campo.cnpjEmitenteC ∧ e.severidade = Severidade.CRITICO ∧
        e.mensagem = Mensagem.emitenteComoCpf s) := by
  have hnorm : normalizarDocumento (some s) = s := normalizarDocumento_digitos s hd (by omega)
  have hsne : s ≠ [] := by intro hsn; rw [hsn] at hl; simp at hl
  have hcontr : validarCnpjCampo (some s) Campo.cnpjContratanteC = none := by
    unfold validarCnpjCampo validarCnpjCampoNorm
    rw [hnorm]
    simp [hsne, hl, hv]
  have hdest : validarCnpjCampo (some s) Campo.cnpjDestinatarioC = none := by
    unfold validarCnpjCampo validarCnpjCampoNorm
    rw [hnorm]
    simp [hsne, hl, hv]
  have hemit : validarCnpjEmitente (some s) =
      some ⟨.cnpjEmitenteC, .emitenteComoCpf s, s, .CRITICO⟩ := by
    unfold validarCnpjEmitente validarCnpjEmitenteNorm
    rw [hnorm]
    simp [hsne, hl, hv]
  refine ⟨?_, ?_, ?_⟩
  · intro e he hc
    rw [validarRegistroCompleto_falso, validarTodosCnpjs_falso, validarTodosNomes_falso] at he
    simp only [List.mem_append, Option.mem_toList, Option.mem_def, or_assoc] at he
    rcases he with h | h | h | h | h | h | h | h | h | h | h
    · rw [campo_validarNfNumero _ _ h] at hc; simp at hc
    · rw [campo_validarNfData _ _ h] at hc; simp at hc
    · rw [campo_validarCteNumero _ _ h] at hc; simp at hc
    · rw [campo_validarCteData _ _ h] at hc; simp at hc
    · rw [campo_validarCnpjEmitente _ _ h] at hc; simp at hc
    · have hx : validarCnpjCampo
          ({ r with contratante_cnpj := some s } : Registro).contratante_cnpj
          Campo.cnpjContratanteC = none := hcontr
      rw [hx] at h; cases h
    · rw [campo_validarCnpjCampo _ _ _ h] at hc; simp at hc
    · rw [campo_validarNome _ _ _ h] at hc; simp at hc
    · rw [campo_validarNome _ _ _ h] at hc; simp at hc
    · rw [campo_validarNome _ _ _ h] at hc; simp at hc
    · rw [campo_validarRecebedor _ _ h] at hc; simp at hc
  · intro e he hc
    rw [validarRegistroCompleto_falso, validarTodosCnpjs_falso, validarTodosNomes_falso] at he
    simp only [List.mem_append, Option.mem_toList, Option.mem_def, or_assoc] at he
    rcases he with h | h | h | h | h | h | h | h | h | h | h
    · rw [campo_validarNfNumero _ _ h] at hc; simp at hc
    · rw [campo_validarNfData _ _ h] at hc; simp at hc
    · rw [campo_validarCteNumero _ _ h] at hc; simp at hc
    · rw [campo_validarCteData _ _ h] at hc; simp at hc
    · rw [campo_validarCnpjEmitente _ _ h] at hc; simp at hc
    · rw [campo_validarCnpjCampo _ _ _ h] at hc; simp at hc
    · have hx : validarCnpjCampo
          ({ r with destinatario_cnpj := some s } : Registro).destinatario_cnpj
          Campo.cnpjDestinatarioC = none := hdest
      rw [hx] at h; cases h
    · rw [campo_validarNome _ _ _ h] at hc; simp at hc
    · rw [campo_validarNome _ _ _ h] at hc; simp at hc
    · rw [campo_validarNome _ _ _ h] at hc; simp at hc
    · rw [campo_validarRecebedor _ _ h] at hc; simp at hc
  · refine ⟨⟨.cnpjEmitenteC, .emitenteComoCpf s, s, .CRITICO⟩, ?_, rfl, rfl, rfl⟩
    rw [validarRegistroCompleto_falso, validarTodosCnpjs_falso]
    have hx : validarCnpjEmitente ({ r with emitente_cnpj := some s } : Registro).emitente_cnpj =
        some ⟨.cnpjEmitenteC, .emitenteComoCpf s, s, .CRITICO⟩ := hemit
    rw [hx]
    simp

theorem c1_witness :
    ("39053344705".toList.all Char.isDigit = true) ∧
    ("39053344705".toList.length = 11) ∧
    (validar_cpf "39053344705".toList = true) ∧
    (∃ e ∈ validarRegistroCompleto false
        { registroVazio with emitente_cnpj := some "39053344705".toList },
        e.campo = Campo.cnpjEmitenteC ∧ e.severidade = Severidade.CRITICO ∧
        e.mensagem = Mensagem.emitenteComoCpf "39053344705".toList) :=
  ⟨by decide, by decide, by decide,
    (c1_cpf_categoria "39053344705".toList (by decide) (by decide) (by decide)
      registroVazio).2.2⟩

/-- C6 (amended): a record whose transport-document number is missing or
whose normalised value is empty or not a string of 1-9 digits gets a
validation error for that field — with severity ERRO, not CRITICAL. -/
theorem c6_cte_severidade (r : Registro)
    (h : normalizarTexto r.cte_numero = [] ∨
      matchCteNumero (normalizarTexto r.cte_numero) = false) :
    ∃ e ∈ validarRegistroCompleto false r,
      e.campo = Campo.cteNumeroC ∧ e.severidade = Severidade.ERRO := by
  have hcte : ∃ e0, validarCteNumero r.cte_numero = some e0 ∧
      e0.campo = Campo.cteNumeroC ∧ e0.severidade = Severidade.ERRO := by
    unfold validarCteNumero validarCteNumeroNorm
    by_cases hz : normalizarTexto r.cte_numero = []
    · exact ⟨⟨.cteNumeroC, .cteNumeroVazio, [], .ERRO⟩, by simp [hz], rfl, rfl⟩
    · rcases h with h | h
      · exact absurd h hz
      · exact ⟨⟨.cteNumeroC, .cteNumeroInvalido (normalizarTexto r.cte_numero),
          normalizarTexto r.cte_numero, .ERRO⟩, by simp [hz, h], rfl, rfl⟩
  rcases hcte with ⟨e0, he0, hcampo, hsev⟩
  refine ⟨e0, ?_, hcampo, hsev⟩
  rw [validarRegistroCompleto_falso, he0]
  simp

/-- C6 counterexample: on a record with the transport-document number
missing, the reported error for that field is never CRITICAL (it is ERRO);
and a value that is not a plain 1-9 digit string but trims to one raises no
error for the field at all. -/
theorem c6_counterexample :
    (∀ e ∈ validarRegistroCompleto false registroVazio,
        e.campo = Campo.cteNumeroC → e.severidade ≠ Severidade.CRITICO) ∧
    (∃ e ∈ validarRegistroCompleto false registroVazio, e.campo = Campo.cteNumeroC) ∧
    (∀ e ∈ validarRegistroCompleto false
        { registroVazio with cte_numero := some " 123 ".toList },
        e.campo ≠ Campo.cteNumeroC) := by decide

theorem c6_witness :
    (normalizarTexto registroVazio.cte_numero = [] ∨
      matchCteNumero (normalizarTexto registroVazio.cte_numero) = false) ∧
    ∃ e ∈ validarRegistroCompleto false registroVazio,
      e.campo = Campo.cteNumeroC ∧ e.severidade = Severidade.ERRO :=
  ⟨Or.inl rfl, c6_cte_severidade registroVazio (Or.inl rfl)⟩

/-- C9: a field value that is Python `None` or a null-like placeholder word
is validated exactly like the empty string, and the field's "empty" error
(with its usual severity) is reported. -/
theorem c9_valores_nulos (f : CampoSel) (r : Registro) (v : Option Str) (h : valorNulo v) :
    validarRegistroCompleto false (gravarCampo r f v) =
      validarRegistroCompleto false (gravarCampo r f (some [])) ∧
    erroVazioDe f ∈ validarRegistroCompleto false (gravarCampo r f v) := by
  have hv : normalizarTexto v = [] := by
    cases v with
    | none => rfl
    | some s =>
      have h' : (aparar s).map maiuscula ∈ listaNulos := h
      rw [normalizarTexto_some]
      simp [h']
  have hv0 : normalizarTexto (some ([] : Str)) = [] := rfl
  cases f <;>
    exact ⟨by
      simp [validarRegistroCompleto_falso, validarTodosCnpjs_falso, validarTodosNomes_falso,
        gravarCampo, validarNfNumero, validarNfData, validarCteNumero, validarCteData,
        validarCnpjEmitente, validarCnpjCampo, validarNome, validarRecebedor,
        normalizarDocumento, hv, hv0], by
      simp [validarRegistroCompleto_falso, validarTodosCnpjs_falso, validarTodosNomes_falso,
        gravarCampo, validarNfNumero, validarNfData, validarCteNumero, validarCteData,
        validarCnpjEmitente, validarCnpjCampo, validarNome, validarRecebedor,
        normalizarDocumento, hv, hv0, erroVazioDe, validarNfNumeroNorm,
        validarDataGenericaNorm, validarCteNumeroNorm, validarCnpjEmitenteNorm,
        validarCnpjCampoNorm, validarNomeNorm, validarRecebedorNorm, somenteDigitos]⟩

theorem c9_witness :
    valorNulo (some " null ".toList) ∧
    erroVazioDe CampoSel.recebedorS ∈
      validarRegistroCompleto false
        (gravarCampo registroVazio .recebedorS (some " null ".toList)) :=
  ⟨by show (aparar " null ".toList).map maiuscula ∈ listaNulos; decide,
    (c9_valores_nulos .recebedorS registroVazio (some " null ".toList)
      (by show (aparar " null ".toList).map maiuscula ∈ listaNulos; decide)).2⟩

/-- C7: the structure validator fails with exactly the missing labels
(pattern-matched case-insensitively, in the fixed label order) and succeeds
when every required label matches. -/
theorem c7_estrutura (texto : Str) :
    (labelsFaltando texto = [] → validarEstrutura texto = .ok true) ∧
    (labelsFaltando texto ≠ [] → validarEstrutura texto = .error (labelsFaltando texto)) ∧
    (∀ l : LabelPdf, l ∈ labelsFaltando texto ↔ buscaLabel l texto = false) := by
  refine ⟨?_, ?_, ?_⟩
  · intro h
    unfold validarEstrutura
    simp [h]
  · intro h
    unfold validarEstrutura
    simp [h]
  · intro l
    rw [labelsFaltando, List.mem_filter]
    have hmem : l ∈ labelsObrigatoriosPdf := by
      cases l <;> simp [labelsObrigatoriosPdf]
    simp [hmem]

theorem c7_witness :
    (labelsFaltando "EMITENTE DESTINATARIO CONTRANTE CTE CNPJ/CPF".toList = []) ∧
    validarEstrutura "EMITENTE DESTINATARIO CONTRANTE CTE CNPJ/CPF".toList = .ok true ∧
    (labelsFaltando ([] : Str) ≠ []) ∧
    validarEstrutura ([] : Str) = .error (labelsFaltando ([] : Str)) :=
  ⟨by decide, (c7_estrutura _).1 (by decide), by decide, (c7_estrutura _).2.1 (by decide)⟩

theorem parseLinhas_invalidas (L : LayoutPosicional) (idx : Nat) (linhas : List Str) :
    (parseLinhas L idx linhas).invalidas = [] := by
  induction linhas generalizing idx with
  | nil => rfl
  | cons linha resto ih =>
    simp only [parseLinhas]
    split
    · exact ih _
    · split
      · simpa using ih _
      · split
        · simpa using ih _
        · exact ih _

theorem parseLinhas_contagens (L : LayoutPosicional) (idx : Nat) (linhas : List Str) :
    (parseLinhas L idx linhas).tn.length =
      (linhas.filter fun l => !l.isEmpty && decide ((l.take 2).map maiuscula = TN_TIPO)).length ∧
    (parseLinhas L idx linhas).cc.length =
      (linhas.filter fun l => !l.isEmpty && decide ((l.take 2).map maiuscula = CC_TIPO)).length := by
  induction linhas generalizing idx with
  | nil => exact ⟨rfl, rfl⟩
  | cons linha resto ih =>
    obtain ⟨ih1, ih2⟩ := ih (idx + 1)
    by_cases he : linha.isEmpty
    · simp [parseLinhas, he, ih1, ih2]
    · by_cases htn : (linha.map maiuscula).take 2 = TN_TIPO
      · have hcc : ¬((linha.map maiuscula).take 2 = CC_TIPO) := by rw [htn]; decide
        simp [parseLinhas, List.filter_cons, he, List.map_take, htn, hcc, ih1, ih2,
          show ¬(TN_TIPO = CC_TIPO) by decide]
      · by_cases hcc : (linha.map maiuscula).take 2 = CC_TIPO
        · simp [parseLinhas, List.filter_cons, he, List.map_take, htn, hcc, ih1, ih2,
            show ¬(CC_TIPO = TN_TIPO) by decide]
        · simp [parseLinhas, List.filter_cons, he, List.map_take, htn, hcc, ih1, ih2]

/-- C10: the positional parser returns an empty `invalidas` diagnostic list
for every input; every nonempty TN/CC-prefixed line yields a record; and on
a padded line every in-range fixed slice has its full fixed width, so the
per-line failure branch is unreachable. -/
theorem c10_posicional (L : LayoutPosicional) (linhas : List Str) :
    (parseTxtSiproquim L linhas).invalidas = [] ∧
    (parseTxtSiproquim L linhas).tn.length =
      (linhas.filter fun l => !l.isEmpty && decide ((l.take 2).map maiuscula = TN_TIPO)).length ∧
    (parseTxtSiproquim L linhas).cc.length =
      (linhas.filter fun l => !l.isEmpty && decide ((l.take 2).map maiuscula = CC_TIPO)).length ∧
    ∀ (linha : Str) (pos : Nat × Nat), 1 ≤ pos.1 → pos.1 ≤ pos.2 + 1 →
      pos.2 ≤ L.tnTamanhoTotal →
      (slicePosicional
          (if L.tnTamanhoTotal ≤ linha.length then linha
           else ajustaEsquerda linha L.tnTamanhoTotal)
          pos).length = pos.2 + 1 - pos.1 := by
  refine ⟨parseLinhas_invalidas L 1 linhas, (parseLinhas_contagens L 1 linhas).1,
    (parseLinhas_contagens L 1 linhas).2, ?_⟩
  intro linha pos h1 h2 h3
  have hlen : (if L.tnTamanhoTotal ≤ linha.length then linha
      else ajustaEsquerda linha L.tnTamanhoTotal).length = max linha.length L.tnTamanhoTotal := by
    split
    · next hc => omega
    · next hc => simp only [ajustaEsquerda, List.length_append, List.length_replicate]; omega
  simp only [slicePosicional, List.length_drop, List.length_take, hlen]
  omega

theorem c10_witness :
    (parseTxtSiproquim layoutTeste linhasTeste).invalidas = [] ∧
    (slicePosicional
        (if layoutTeste.tnTamanhoTotal ≤ ("TN1".toList : Str).length then "TN1".toList
         else ajustaEsquerda "TN1".toList layoutTeste.tnTamanhoTotal)
        (2, 4)).length = (2, 4).2 + 1 - (2, 4).1 :=
  ⟨(c10_posicional layoutTeste linhasTeste).1,
    (c10_posicional layoutTeste linhasTeste).2.2.2 "TN1".toList (2, 4)
      (by decide) (by decide) (by decide)⟩

theorem processaRegistros_get (ff : Bool) (idx : IndiceDocs) (kb : BaseConhecimento)
    (regs : List Registro) :
    (processaRegistros ff idx kb regs).1.length = regs.length ∧
    ∀ i : Nat, (processaRegistros ff idx kb regs).1.get? i =
      (regs.get? i).map fun nf => (tentarCorrigirDados idx kb nf).1 := by
  induction regs with
  | nil => exact ⟨rfl, fun i => by cases i <;> rfl⟩
  | cons nf resto ih =>
    constructor
    · simp [processaRegistros, ih.1]
    · intro i
      cases i with
      | zero => rfl
      | succ n => simpa [processaRegistros] using ih.2 n

/-- C4: the integrated pipeline returns exactly the input records in their
original order, each merely passed through the correction attempt; no record
is removed or blocked regardless of its validation errors. -/
theorem c4_nada_removido (ff : Bool) (kb : BaseConhecimento) (regs : List Registro) :
    (filtrarDadosValidos ff kb regs).1.length = regs.length ∧
    ∀ i : Nat, (filtrarDadosValidos ff kb regs).1.get? i =
      (regs.get? i).map fun nf =>
        (tentarCorrigirDados (construirIndiceDocumentos regs) kb nf).1 :=
  processaRegistros_get ff (construirIndiceDocumentos regs) kb regs

theorem lerCampo_gravarCampo_ne (r : Registro) (f g : CampoSel) (v : Option Str)
    (h : f ≠ g) : lerCampo (gravarCampo r g v) f = lerCampo r f := by
  cases f <;> cases g <;> first | rfl | exact absurd rfl h

theorem isEmpty_falso {l : Str} (h : l ≠ []) : l.isEmpty = false := by
  cases l with
  | nil => exact absurd rfl h
  | cons c t => rfl

theorem corrigePapel_outros (idx : IndiceDocs) (kb : BaseConhecimento) (nf : Registro)
    (p : Papel) (f : CampoSel) (h1 : f ≠ campoCnpjDe p) (h2 : f ≠ campoNomeDe p) :
    lerCampo (corrigePapel idx kb nf p).1 f = lerCampo nf f := by
  unfold corrigePapel
  dsimp only
  repeat' split
  all_goals simp_all [lerCampo_gravarCampo_ne, h1, h2]

theorem corrigePapel_preserva_cnpj (idx : IndiceDocs) (kb : BaseConhecimento)
    (nf : Registro) (p : Papel)
    (h : normalizarDocumento (lerCampo nf (campoCnpjDe p)) ≠ [] ∧
      normalizarDocumento (lerCampo nf (campoCnpjDe p)) ≠ CNPJ_VAZIO) :
    lerCampo (corrigePapel idx kb nf p).1 (campoCnpjDe p) =
      lerCampo nf (campoCnpjDe p) := by
  have hne : campoCnpjDe p ≠ campoNomeDe p := by cases p <;> decide
  unfold corrigePapel
  dsimp only
  repeat' split
  all_goals simp_all [isEmpty_falso h.1, h.2, lerCampo_gravarCampo_ne, hne]

theorem corrigePapel_preserva_nome (idx : IndiceDocs) (kb : BaseConhecimento)
    (nf : Registro) (p : Papel)
    (h : 2 ≤ (normalizarTexto (lerCampo nf (campoNomeDe p))).length) :
    lerCampo (corrigePapel idx kb nf p).1 (campoNomeDe p) =
      lerCampo nf (campoNomeDe p) := by
  have hne : campoNomeDe p ≠ campoCnpjDe p := by cases p <;> decide
  have hlt : ¬((normalizarTexto (lerCampo nf (campoNomeDe p))).length < 2) := by omega
  have hdec : decide ((normalizarTexto (lerCampo nf (campoNomeDe p))).length < 2) = false := by
    simp [hlt]
  unfold corrigePapel
  dsimp only
  simp only [hdec, Bool.and_false, Bool.false_eq_true, if_false]
  repeat' split
  all_goals simp_all [lerCampo_gravarCampo_ne, hne]

/-- C5 (amended): the correction engine touches only the six identifier/name
fields; an identifier field whose digit-normalised value is non-empty and
not the all-zero placeholder is preserved, as is a name field whose
null-normalised value has at least 2 characters. -/
theorem c5_preserva_campos (idx : IndiceDocs) (kb : BaseConhecimento) (r : Registro)
    (f : CampoSel) (h : preservaCorrecao r f) :
    lerCampo ((tentarCorrigirDados idx kb r).1) f = lerCampo r f := by
  have hfold : (tentarCorrigirDados idx kb r).1 =
      (corrigePapel idx kb
        (corrigePapel idx kb (corrigePapel idx kb r .destinatarioP).1 .contratanteP).1
        .emitenteP).1 := by
    simp [tentarCorrigirDados, papeisCorrecao]
  rw [hfold]
  have eDest : ∀ g : CampoSel, g ≠ CampoSel.destinatarioCnpjS → g ≠ CampoSel.destinatarioNomeS →
      lerCampo (corrigePapel idx kb r .destinatarioP).1 g = lerCampo r g :=
    fun g h1 h2 => corrigePapel_outros idx kb r .destinatarioP g h1 h2
  have eContr : ∀ (nf : Registro) (g : CampoSel), g ≠ CampoSel.contratanteCnpjS →
      g ≠ CampoSel.contratanteNomeS →
      lerCampo (corrigePapel idx kb nf .contratanteP).1 g = lerCampo nf g :=
    fun nf g h1 h2 => corrigePapel_outros idx kb nf .contratanteP g h1 h2
  have eEmit : ∀ (nf : Registro) (g : CampoSel), g ≠ CampoSel.emitenteCnpjS →
      g ≠ CampoSel.emitenteNomeS →
      lerCampo (corrigePapel idx kb nf .emitenteP).1 g = lerCampo nf g :=
    fun nf g h1 h2 => corrigePapel_outros idx kb nf .emitenteP g h1 h2
  cases f with
  | nfNumeroS =>
    rw [eEmit _ _ (by decide) (by decide), eContr _ _ (by decide) (by decide),
      eDest _ (by decide) (by decide)]
  | nfDataS =>
    rw [eEmit _ _ (by decide) (by decide), eContr _ _ (by decide) (by decide),
      eDest _ (by decide) (by decide)]
  | cteNumeroS =>
    rw [eEmit _ _ (by decide) (by decide), eContr _ _ (by decide) (by decide),
      eDest _ (by decide) (by decide)]
  | cteDataS =>
    rw [eEmit _ _ (by decide) (by decide), eContr _ _ (by decide) (by decide),
      eDest _ (by decide) (by decide)]
  | recebedorS =>
    rw [eEmit _ _ (by decide) (by decide), eContr _ _ (by decide) (by decide),
      eDest _ (by decide) (by decide)]
  | destinatarioCnpjS =>
    rw [eEmit _ _ (by decide) (by decide), eContr _ _ (by decide) (by decide)]
    exact corrigePapel_preserva_cnpj idx kb r .destinatarioP h
  | destinatarioNomeS =>
    rw [eEmit _ _ (by decide) (by decide), eContr _ _ (by decide) (by decide)]
    exact corrigePapel_preserva_nome idx kb r .destinatarioP h
  | contratanteCnpjS =>
    have e1 : lerCampo (corrigePapel idx kb r .destinatarioP).1 CampoSel.contratanteCnpjS =
        lerCampo r CampoSel.contratanteCnpjS := eDest _ (by decide) (by decide)
    rw [eEmit _ _ (by decide) (by decide)]
    have h' : normalizarDocumento (lerCampo (corrigePapel idx kb r .destinatarioP).1
          (campoCnpjDe .contratanteP)) ≠ [] ∧
        normalizarDocumento (lerCampo (corrigePapel idx kb r .destinatarioP).1
          (campoCnpjDe .contratanteP)) ≠ CNPJ_VAZIO := by
      simp only [campoCnpjDe]
      rw [e1]
      exact h
    have passo := corrigePapel_preserva_cnpj idx kb
      (corrigePapel idx kb r .destinatarioP).1 .contratanteP h'
    simp only [campoCnpjDe] at passo
    rw [passo, e1]
  | contratanteNomeS =>
    have e1 : lerCampo (corrigePapel idx kb r .destinatarioP).1 CampoSel.contratanteNomeS =
        lerCampo r CampoSel.contratanteNomeS := eDest _ (by decide) (by decide)
    rw [eEmit _ _ (by decide) (by decide)]
    have h' : 2 ≤ (normalizarTexto (lerCampo (corrigePapel idx kb r .destinatarioP).1
        (campoNomeDe .contratanteP))).length := by
      simp only [campoNomeDe]
      rw [e1]
      exact h
    have passo := corrigePapel_preserva_nome idx kb
      (corrigePapel idx kb r .destinatarioP).1 .contratanteP h'
    simp only [campoNomeDe] at passo
    rw [passo, e1]
  | emitenteCnpjS =>
    have e1 : lerCampo (corrigePapel idx kb r .destinatarioP).1 CampoSel.emitenteCnpjS =
        lerCampo r CampoSel.emitenteCnpjS := eDest _ (by decide) (by decide)
    have e2 : lerCampo (corrigePapel idx kb (corrigePapel idx kb r .destinatarioP).1
          .contratanteP).1 CampoSel.emitenteCnpjS =
        lerCampo (corrigePapel idx kb r .destinatarioP).1 CampoSel.emitenteCnpjS :=
      eContr _ _ (by decide) (by decide)
    have h' : normalizarDocumento (lerCampo (corrigePapel idx kb
          (corrigePapel idx kb r .destinatarioP).1 .contratanteP).1
          (campoCnpjDe .emitenteP)) ≠ [] ∧
        normalizarDocumento (lerCampo (corrigePapel idx kb
          (corrigePapel idx kb r .destinatarioP).1 .contratanteP).1
          (campoCnpjDe .emitenteP)) ≠ CNPJ_VAZIO := by
      simp only [campoCnpjDe]
      rw [e2, e1]
      exact h
    have passo := corrigePapel_preserva_cnpj idx kb
      (corrigePapel idx kb (corrigePapel idx kb r .destinatarioP).1 .contratanteP).1
      .emitenteP h'
    simp only [campoCnpjDe] at passo
    rw [passo, e2, e1]
  | emitenteNomeS =>
    have e1 : lerCampo (corrigePapel idx kb r .destinatarioP).1 CampoSel.emitenteNomeS =
        lerCampo r CampoSel.emitenteNomeS := eDest _ (by decide) (by decide)
    have e2 : lerCampo (corrigePapel idx kb (corrigePapel idx kb r .destinatarioP).1
          .contratanteP).1 CampoSel.emitenteNomeS =
        lerCampo (corrigePapel idx kb r .destinatarioP).1 CampoSel.emitenteNomeS :=
      eContr _ _ (by decide) (by decide)
    have h' : 2 ≤ (normalizarTexto (lerCampo (corrigePapel idx kb
        (corrigePapel idx kb r .destinatarioP).1 .contratanteP).1
        (campoNomeDe .emitenteP))).length := by
      simp only [campoNomeDe]
      rw [e2, e1]
      exact h
    have passo := corrigePapel_preserva_nome idx kb
      (corrigePapel idx kb (corrigePapel idx kb r .destinatarioP).1 .contratanteP).1
      .emitenteP h'
    simp only [campoNomeDe] at passo
    rw [passo, e2, e1]

theorem c5_witness :
    (normalizarDocumento regC5A.destinatario_cnpj ≠ [] ∧
      normalizarDocumento regC5A.destinatario_cnpj ≠ CNPJ_VAZIO) ∧
    lerCampo ((tentarCorrigirDados indiceVazio kbVazia regC5A).1) .destinatarioCnpjS =
      lerCampo regC5A .destinatarioCnpjS :=
  ⟨⟨by decide, by decide⟩,
    c5_preserva_campos indiceVazio kbVazia regC5A .destinatarioCnpjS ⟨by decide, by decide⟩⟩

/-- C5 counterexample: record B's recipient identifier holds the non-empty
string "abc", yet the pipeline replaces it with the identifier inferred from
the in-batch index. -/
theorem c5_counterexample :
    regC5B.destinatario_cnpj = some "abc".toList ∧
    (filtrarDadosValidos false kbVazia [regC5A, regC5B]).1.map Registro.destinatario_cnpj =
      [some "11222333000181".toList, some "11222333000181".toList] :=
  ⟨rfl, by decide⟩

theorem lerCampo_gravarCampo_eq (r : Registro) (g : CampoSel) (v : Option Str) :
    lerCampo (gravarCampo r g v) g = v := by
  cases g <;> rfl

theorem mem_insereUnico (l : List Str) (c x : Str) :
    x ∈ insereUnico l c ↔ x ∈ l ∨ x = c := by
  unfold insereUnico
  split
  · next hc =>
    constructor
    · exact Or.inl
    · rintro (h | rfl)
      · exact h
      · exact hc
  · simp

theorem mem_atualizaConjunto (chaves : List Str) (acc : List Str) (x : Str) :
    x ∈ atualizaConjunto acc chaves ↔ x ∈ acc ∨ x ∈ chaves := by
  induction chaves generalizing acc with
  | nil => simp [atualizaConjunto]
  | cons k t ih =>
    show x ∈ atualizaConjunto (insereUnico acc k) t ↔ _
    rw [ih, mem_insereUnico]
    simp
    tauto

theorem mem_incrementaContador (ctr : List (Str × Nat)) (doc : Str) (dn : Str × Nat)
    (h : dn ∈ incrementaContador ctr doc) : dn.1 = doc ∨ dn ∈ ctr := by
  induction ctr with
  | nil =>
    simp [incrementaContador] at h
    subst h
    exact Or.inl rfl
  | cons a t ih =>
    obtain ⟨d, n⟩ := a
    simp only [incrementaContador] at h
    by_cases hdd : d = doc
    · rw [if_pos hdd] at h
      rcases List.mem_cons.mp h with h1 | h1
      · subst h1; exact Or.inl hdd
      · exact Or.inr (List.mem_cons_of_mem _ h1)
    · rw [if_neg hdd] at h
      rcases List.mem_cons.mp h with h1 | h1
      · subst h1; exact Or.inr (List.mem_cons_self _ _)
      · rcases ih h1 with h2 | h2
        · exact Or.inl h2
        · exact Or.inr (List.mem_cons_of_mem _ h2)

theorem mem_incrementaIndice (l : List (Str × List (Str × Nat))) (nome doc : Str)
    (par : Str × List (Str × Nat)) (hpar : par ∈ incrementaIndice l nome doc) :
    ∀ dn ∈ par.2, dn.1 = doc ∨ ∃ par0 ∈ l, dn ∈ par0.2 := by
  induction l with
  | nil =>
    intro dn hdn
    simp [incrementaIndice] at hpar
    subst hpar
    simp at hdn
    subst hdn
    exact Or.inl rfl
  | cons a t ih =>
    obtain ⟨n0, ctr0⟩ := a
    intro dn hdn
    simp only [incrementaIndice] at hpar
    by_cases hn : n0 = nome
    · rw [if_pos hn] at hpar
      rcases List.mem_cons.mp hpar with h1 | h1
      · subst h1
        rcases mem_incrementaContador ctr0 doc dn hdn with h2 | h2
        · exact Or.inl h2
        · exact Or.inr ⟨(n0, ctr0), List.mem_cons_self _ _, h2⟩
      · exact Or.inr ⟨par, List.mem_cons_of_mem _ h1, hdn⟩
    · rw [if_neg hn] at hpar
      rcases List.mem_cons.mp hpar with h1 | h1
      · subst h1
        exact Or.inr ⟨(n0, ctr0), List.mem_cons_self _ _, hdn⟩
      · rcases ih h1 dn hdn with h2 | ⟨par0, hp0, hdn0⟩
        · exact Or.inl h2
        · exact Or.inr ⟨par0, List.mem_cons_of_mem _ hp0, hdn0⟩

theorem observacao_bem_formada (i : IndiceDocs) (p : Papel) (nome doc : Str)
    (hi : indiceBemFormado i) (hd : docBemFormado doc) :
    indiceBemFormado (adicionaObservacao i p nome doc) := by
  intro q
  intro par hpar dn hdn
  have hmem : par ∈ incrementaIndice (lerIndice i q) nome doc ∨ par ∈ lerIndice i q := by
    cases p <;> cases q <;>
      simp_all [adicionaObservacao, lerIndice]
  rcases hmem with hm | hm
  · rcases mem_incrementaIndice _ nome doc par hm dn hdn with h2 | ⟨par0, hp0, hdn0⟩
    · rw [h2]; exact hd
    · exact hi q par0 hp0 dn hdn0
  · exact hi q par hm dn hdn

theorem passo_indice_bem_formado (j : IndiceDocs) (r : Registro) (p : Papel)
    (hj : indiceBemFormado j) :
    indiceBemFormado (
      if decide ((normalizarDocumento (lerCampo r (campoCnpjDe p))).length = 14) &&
          decide (normalizarDocumento (lerCampo r (campoCnpjDe p)) ≠ CNPJ_VAZIO) &&
          decide (8 ≤ (normalizarNomeChave (lerCampo r (campoNomeDe p))).length) then
        adicionaObservacao j p (normalizarNomeChave (lerCampo r (campoNomeDe p)))
          (normalizarDocumento (lerCampo r (campoCnpjDe p)))
      else j) := by
  split
  · next hc =>
    simp only [Bool.and_eq_true, decide_eq_true_eq] at hc
    exact observacao_bem_formada j p _ _ hj ⟨hc.1.1, somenteDigitos_all _, hc.1.2⟩
  · exact hj

theorem adiciona_bem_formado (i : IndiceDocs) (r : Registro) (hi : indiceBemFormado i) :
    indiceBemFormado (adicionaRegistroIndice i r) := by
  unfold adicionaRegistroIndice papeisIndice
  simp only [List.foldl_cons, List.foldl_nil]
  exact passo_indice_bem_formado _ r .destinatarioP
    (passo_indice_bem_formado _ r .contratanteP
      (passo_indice_bem_formado _ r .emitenteP hi))

theorem construir_bem_formado (regs : List Registro) :
    indiceBemFormado (construirIndiceDocumentos regs) := by
  unfold construirIndiceDocumentos
  suffices h : ∀ i : IndiceDocs, indiceBemFormado i →
      indiceBemFormado (regs.foldl adicionaRegistroIndice i) by
    refine h indiceVazio ?_
    intro p par hpar
    cases p <;> simp [indiceVazio, lerIndice] at hpar
  induction regs with
  | nil => exact fun i hi => hi
  | cons r resto ih => exact fun i hi => ih _ (adiciona_bem_formado i r hi)

theorem procuraAssoc_mem (l : List (Str × List (Str × Nat))) (nome : Str)
    (ctr : List (Str × Nat)) (h : procuraAssoc l nome = some ctr) : (nome, ctr) ∈ l := by
  induction l with
  | nil => cases h
  | cons a t ih =>
    obtain ⟨n, c⟩ := a
    simp only [procuraAssoc] at h
    split at h
    · next hn =>
      cases h
      subst hn
      exact List.mem_cons_self _ _
    · exact List.mem_cons_of_mem _ (ih h)

theorem mem_coletaCandidatos (nomeChave : Str) (l : List (Str × List (Str × Nat)))
    (acc : List Str) (d : Str) (h : d ∈ coletaCandidatos nomeChave l acc) :
    d ∈ acc ∨ ∃ par ∈ l, ∃ dn ∈ par.2, dn.1 = d := by
  induction l generalizing acc with
  | nil => exact Or.inl h
  | cons a t ih =>
    obtain ⟨nomeIdx, docs⟩ := a
    simp only [coletaCandidatos] at h
    generalize (if nomeChave.length ≤ nomeIdx.length then (nomeChave, nomeIdx)
      else (nomeIdx, nomeChave)) = pr at h
    split at h
    · split at h
      · rcases (mem_atualizaConjunto _ _ _).mp h with h1 | h1
        · exact Or.inl h1
        · rcases List.mem_map.mp h1 with ⟨dn, hdn, hd⟩
          exact Or.inr ⟨(nomeIdx, docs), List.mem_cons_self _ _, dn, hdn, hd⟩
      · rcases ih _ h with h1 | ⟨par, hp, hrest⟩
        · rcases (mem_atualizaConjunto _ _ _).mp h1 with h2 | h2
          · exact Or.inl h2
          · rcases List.mem_map.mp h2 with ⟨dn, hdn, hd⟩
            exact Or.inr ⟨(nomeIdx, docs), List.mem_cons_self _ _, dn, hdn, hd⟩
        · exact Or.inr ⟨par, List.mem_cons_of_mem _ hp, hrest⟩
    · rcases ih _ h with h1 | ⟨par, hp, hrest⟩
      · exact Or.inl h1
      · exact Or.inr ⟨par, List.mem_cons_of_mem _ hp, hrest⟩

theorem buscar_bem_formado (idx : IndiceDocs) (p : Papel) (nome d : Str)
    (hidx : indiceBemFormado idx)
    (h : buscarDocumentoPorNome idx kbVazia p nome = some d) : docBemFormado d := by
  have cauda : ∀ d1 : Str,
      (if 12 ≤ (normalizarNomeChave (some nome)).length then
        coletaCandidatos (normalizarNomeChave (some nome)) (lerIndice idx p) []
      else []) = [d1] → docBemFormado d1 := by
    intro d1 heq
    by_cases hc : 12 ≤ (normalizarNomeChave (some nome)).length
    · rw [if_pos hc] at heq
      have hx : d1 ∈ coletaCandidatos (normalizarNomeChave (some nome))
          (lerIndice idx p) [] := by rw [heq]; exact List.mem_cons_self _ _
      rcases mem_coletaCandidatos _ _ _ _ hx with h1 | ⟨par, hp, dn, hdn, hd⟩
      · cases h1
      · rw [← hd]; exact hidx p par hp dn hdn
    · rw [if_neg hc] at heq; cases heq
  unfold buscarDocumentoPorNome at h
  dsimp only at h
  by_cases hlen : (normalizarNomeChave (some nome)).length < 8
  · rw [if_pos hlen] at h; cases h
  · rw [if_neg hlen] at h
    cases hproc : procuraAssoc (lerIndice idx p) (normalizarNomeChave (some nome)) with
    | none =>
      rw [hproc] at h
      dsimp only at h
      cases hcol : (if 12 ≤ (normalizarNomeChave (some nome)).length then
          coletaCandidatos (normalizarNomeChave (some nome)) (lerIndice idx p) []
        else []) with
      | nil => rw [hcol] at h; simp [kbVazia] at h
      | cons x t =>
        cases t with
        | nil =>
          rw [hcol] at h
          simp only [Option.some.injEq] at h
          subst h
          exact cauda x hcol
        | cons y t2 => rw [hcol] at h; simp [kbVazia] at h
    | some ctr =>
      rw [hproc] at h
      rcases ctr with _ | ⟨d0k, _ | ⟨e2, t2⟩⟩
      · dsimp only at h
        cases hcol : (if 12 ≤ (normalizarNomeChave (some nome)).length then
            coletaCandidatos (normalizarNomeChave (some nome)) (lerIndice idx p) []
          else []) with
        | nil => rw [hcol] at h; simp [kbVazia] at h
        | cons x t =>
          cases t with
          | nil =>
            rw [hcol] at h
            simp only [Option.some.injEq] at h
            subst h
            exact cauda x hcol
          | cons y t2 => rw [hcol] at h; simp [kbVazia] at h
      · obtain ⟨d0, k⟩ := d0k
        dsimp only at h
        have hd0 : d0 = d := Option.some.inj h
        subst hd0
        exact hidx p _ (procuraAssoc_mem _ _ _ hproc) (d0, k) (List.mem_cons_self _ _)
      · dsimp only at h
        cases hcol : (if 12 ≤ (normalizarNomeChave (some nome)).length then
            coletaCandidatos (normalizarNomeChave (some nome)) (lerIndice idx p) []
          else []) with
        | nil => rw [hcol] at h; simp [kbVazia] at h
        | cons x t =>
          cases t with
          | nil =>
            rw [hcol] at h
            simp only [Option.some.injEq] at h
            subst h
            exact cauda x hcol
          | cons y t2 => rw [hcol] at h; simp [kbVazia] at h

/-- With an empty knowledge base the name-filling branch is dead, so one
correction step reduces to the document-inference step. -/
theorem corrigePapel_kbVazia (idx : IndiceDocs) (nf : Registro) (p : Papel) :
    corrigePapel idx kbVazia nf p =
      (if ((normalizarDocumento (lerCampo nf (campoCnpjDe p))).isEmpty ||
            decide (normalizarDocumento (lerCampo nf (campoCnpjDe p)) = CNPJ_VAZIO)) &&
          decide (8 ≤ (normalizarTexto (lerCampo nf (campoNomeDe p))).length) then
        match buscarDocumentoPorNome idx kbVazia p
            (normalizarTexto (lerCampo nf (campoNomeDe p))) with
        | some doc =>
          if doc.isEmpty then (nf, false)
          else (gravarCampo nf (campoCnpjDe p) (some doc), true)
        | none => (nf, false)
      else (nf, false)) := by
  unfold corrigePapel
  dsimp only
  repeat' split
  all_goals simp_all [kbVazia]

/-- A correction step that was a no-op stays a no-op on any record agreeing
on the two fields it reads. -/
theorem corrigePapel_noop_congr (idx : IndiceDocs) (nf nf' : Registro) (p : Papel)
    (hc : lerCampo nf' (campoCnpjDe p) = lerCampo nf (campoCnpjDe p))
    (hn : lerCampo nf' (campoNomeDe p) = lerCampo nf (campoNomeDe p))
    (h : corrigePapel idx kbVazia nf p = (nf, false)) :
    corrigePapel idx kbVazia nf' p = (nf', false) := by
  rw [corrigePapel_kbVazia] at h ⊢
  rw [hc, hn]
  by_cases hcond : (((normalizarDocumento (lerCampo nf (campoCnpjDe p))).isEmpty ||
      decide (normalizarDocumento (lerCampo nf (campoCnpjDe p)) = CNPJ_VAZIO)) &&
      decide (8 ≤ (normalizarTexto (lerCampo nf (campoNomeDe p))).length)) = true
  · rw [if_pos hcond] at h ⊢
    cases hbus : buscarDocumentoPorNome idx kbVazia p
        (normalizarTexto (lerCampo nf (campoNomeDe p))) with
    | none => rfl
    | some doc =>
      rw [hbus] at h
      dsimp only at h ⊢
      by_cases hde : doc.isEmpty = true
      · rw [if_pos hde]
      · rw [if_neg hde] at h
        exact absurd (congrArg Prod.snd h) (by simp)
  · rw [if_neg hcond]

/-- Applying one correction step twice (same index, empty knowledge base)
changes nothing the second time and reports no correction, provided the
index only holds well-formed documents. -/
theorem corrigePapel_estavel (idx : IndiceDocs) (hidx : indiceBemFormado idx)
    (nf : Registro) (p : Papel) :
    corrigePapel idx kbVazia ((corrigePapel idx kbVazia nf p).1) p =
      ((corrigePapel idx kbVazia nf p).1, false) := by
  by_cases hcond : (((normalizarDocumento (lerCampo nf (campoCnpjDe p))).isEmpty ||
      decide (normalizarDocumento (lerCampo nf (campoCnpjDe p)) = CNPJ_VAZIO)) &&
      decide (8 ≤ (normalizarTexto (lerCampo nf (campoNomeDe p))).length)) = true
  case neg =>
    have h1 : corrigePapel idx kbVazia nf p = (nf, false) := by
      rw [corrigePapel_kbVazia, if_neg hcond]
    rw [h1]
    exact h1
  case pos =>
    cases hbus : buscarDocumentoPorNome idx kbVazia p
        (normalizarTexto (lerCampo nf (campoNomeDe p))) with
    | none =>
      have h1 : corrigePapel idx kbVazia nf p = (nf, false) := by
        rw [corrigePapel_kbVazia, if_pos hcond, hbus]
      rw [h1]
      exact h1
    | some doc =>
      by_cases hde : doc.isEmpty = true
      · have h1 : corrigePapel idx kbVazia nf p = (nf, false) := by
          rw [corrigePapel_kbVazia, if_pos hcond, hbus]
          dsimp only
          rw [if_pos hde]
        rw [h1]
        exact h1
      · have hbf : docBemFormado doc := buscar_bem_formado idx p _ doc hidx hbus
        have h1 : corrigePapel idx kbVazia nf p =
            (gravarCampo nf (campoCnpjDe p) (some doc), true) := by
          rw [corrigePapel_kbVazia, if_pos hcond, hbus]
          dsimp only
          rw [if_neg hde]
        have hdocnorm : normalizarDocumento (some doc) = doc :=
          normalizarDocumento_digitos doc hbf.2.1 (by rw [hbf.1]; omega)
        have hnaoVazio : doc ≠ [] := by
          intro hnil
          rw [hnil] at hbf
          simp [docBemFormado] at hbf
        have hcond2 : (((normalizarDocumento (lerCampo
              (gravarCampo nf (campoCnpjDe p) (some doc)) (campoCnpjDe p))).isEmpty ||
            decide (normalizarDocumento (lerCampo
              (gravarCampo nf (campoCnpjDe p) (some doc)) (campoCnpjDe p)) = CNPJ_VAZIO)) &&
            decide (8 ≤ (normalizarTexto (lerCampo
              (gravarCampo nf (campoCnpjDe p) (some doc)) (campoNomeDe p))).length)) = false := by
          rw [lerCampo_gravarCampo_eq, hdocnorm]
          simp [isEmpty_falso hnaoVazio, hbf.2.2]
        rw [h1]
        dsimp only
        rw [corrigePapel_kbVazia, if_neg (by simp [hcond2])]

/-- C8 (amended): correcting a record a second time against the same
per-batch index with an empty knowledge base changes nothing and reports
zero corrections; idempotence of the whole engine fails only because a
second run rebuilds the index from the corrected batch. -/
theorem c8_correcao_estavel (regs : List Registro) (r : Registro) :
    tentarCorrigirDados (construirIndiceDocumentos regs) kbVazia
        ((tentarCorrigirDados (construirIndiceDocumentos regs) kbVazia r).1) =
      ((tentarCorrigirDados (construirIndiceDocumentos regs) kbVazia r).1, false) := by
  have hidx : indiceBemFormado (construirIndiceDocumentos regs) := construir_bem_formado regs
  set idx := construirIndiceDocumentos regs with hidxeq
  set s1 : Registro × Bool := corrigePapel idx kbVazia r .destinatarioP with hs1
  set s2 : Registro × Bool := corrigePapel idx kbVazia s1.1 .contratanteP with hs2
  set s3 : Registro × Bool := corrigePapel idx kbVazia s2.1 .emitenteP with hs3
  have hr1 : (tentarCorrigirDados idx kbVazia r).1 = s3.1 := by
    rw [hs3, hs2, hs1]
    simp [tentarCorrigirDados, papeisCorrecao]
  have ed1 : lerCampo s3.1 (campoCnpjDe Papel.destinatarioP) =
      lerCampo s2.1 (campoCnpjDe Papel.destinatarioP) := by
    rw [hs3]; exact corrigePapel_outros _ _ _ _ _ (by decide) (by decide)
  have ed2 : lerCampo s2.1 (campoCnpjDe Papel.destinatarioP) =
      lerCampo s1.1 (campoCnpjDe Papel.destinatarioP) := by
    rw [hs2]; exact corrigePapel_outros _ _ _ _ _ (by decide) (by decide)
  have en1 : lerCampo s3.1 (campoNomeDe Papel.destinatarioP) =
      lerCampo s2.1 (campoNomeDe Papel.destinatarioP) := by
    rw [hs3]; exact corrigePapel_outros _ _ _ _ _ (by decide) (by decide)
  have en2 : lerCampo s2.1 (campoNomeDe Papel.destinatarioP) =
      lerCampo s1.1 (campoNomeDe Papel.destinatarioP) := by
    rw [hs2]; exact corrigePapel_outros _ _ _ _ _ (by decide) (by decide)
  have hstabD : corrigePapel idx kbVazia s1.1 .destinatarioP = (s1.1, false) := by
    rw [hs1]; exact corrigePapel_estavel idx hidx r .destinatarioP
  have ht1 : corrigePapel idx kbVazia s3.1 .destinatarioP = (s3.1, false) :=
    corrigePapel_noop_congr idx s1.1 s3.1 .destinatarioP (ed1.trans ed2) (en1.trans en2) hstabD
  have ec1 : lerCampo s3.1 (campoCnpjDe Papel.contratanteP) =
      lerCampo s2.1 (campoCnpjDe Papel.contratanteP) := by
    rw [hs3]; exact corrigePapel_outros _ _ _ _ _ (by decide) (by decide)
  have ecn1 : lerCampo s3.1 (campoNomeDe Papel.contratanteP) =
      lerCampo s2.1 (campoNomeDe Papel.contratanteP) := by
    rw [hs3]; exact corrigePapel_outros _ _ _ _ _ (by decide) (by decide)
  have hstabC : corrigePapel idx kbVazia s2.1 .contratanteP = (s2.1, false) := by
    rw [hs2]; exact corrigePapel_estavel idx hidx s1.1 .contratanteP
  have ht2 : corrigePapel idx kbVazia s3.1 .contratanteP = (s3.1, false) :=
    corrigePapel_noop_congr idx s2.1 s3.1 .contratanteP ec1 ecn1 hstabC
  have ht3 : corrigePapel idx kbVazia s3.1 .emitenteP = (s3.1, false) := by
    rw [hs3]; exact corrigePapel_estavel idx hidx s2.1 .emitenteP
  rw [hr1]
  simp [tentarCorrigirDados, papeisCorrecao, ht1, ht2, ht3]

/-- C8 counterexample: running the integrated pipeline a second time on the
output of a first run performs an additional correction and changes a
record, because the rebuilt index contains the identifier filled in by the
first run. -/
theorem c8_counterexample :
    (filtrarDadosValidos false kbVazia
        (filtrarDadosValidos false kbVazia loteC8).1).2.corrigidos ≠ 0 ∧
    (filtrarDadosValidos false kbVazia
        (filtrarDadosValidos false kbVazia loteC8).1).1 ≠
      (filtrarDadosValidos false kbVazia loteC8).1 := by decide

theorem nodup_insereUnico (l : List Str) (c : Str) (h : l.Nodup) :
    (insereUnico l c).Nodup := by
  unfold insereUnico
  split
  · exact h
  · next hc =>
    rw [List.nodup_append]
    refine ⟨h, List.nodup_singleton c, ?_⟩
    intro a ha hac
    rw [List.mem_singleton] at hac
    subst hac
    exact hc ha

theorem nodup_candidatos_fold (l : List Str) (acc : List Str) (h : acc.Nodup) :
    (l.foldl (fun s c => if validar_cnpj c then insereUnico s c else s) acc).Nodup := by
  induction l generalizing acc with
  | nil => exact h
  | cons c t ih =>
    simp only [List.foldl_cons]
    refine ih _ ?_
    by_cases hv : validar_cnpj c = true
    · rw [if_pos hv]; exact nodup_insereUnico _ _ h
    · rw [if_neg hv]; exact h

theorem mem_candidatos_fold (l : List Str) (acc : List Str) (x : Str) :
    x ∈ l.foldl (fun s c => if validar_cnpj c then insereUnico s c else s) acc ↔
      x ∈ acc ∨ (x ∈ l ∧ validar_cnpj x = true) := by
  induction l generalizing acc with
  | nil => simp
  | cons c t ih =>
    simp only [List.foldl_cons]
    rw [ih]
    by_cases hv : validar_cnpj c = true
    · rw [if_pos hv, mem_insereUnico]
      constructor
      · rintro ((h | rfl) | ⟨hm, hval⟩)
        · exact Or.inl h
        · exact Or.inr ⟨List.mem_cons_self _ _, hv⟩
        · exact Or.inr ⟨List.mem_cons_of_mem _ hm, hval⟩
      · rintro (h | ⟨hm, hval⟩)
        · exact Or.inl (Or.inl h)
        · rcases List.mem_cons.mp hm with rfl | hm2
          · exact Or.inl (Or.inr rfl)
          · exact Or.inr ⟨hm2, hval⟩
    · rw [if_neg hv]
      constructor
      · rintro (h | ⟨hm, hval⟩)
        · exact Or.inl h
        · exact Or.inr ⟨List.mem_cons_of_mem _ hm, hval⟩
      · rintro (h | ⟨hm, hval⟩)
        · exact Or.inl h
        · rcases List.mem_cons.mp hm with rfl | hm2
          · exact absurd hval hv
          · exact Or.inr ⟨hm2, hval⟩

theorem lista_singleton_de_unico (l : List Str) (c : Str) (hnd : l.Nodup) (hc : c ∈ l)
    (hall : ∀ x ∈ l, x = c) : l = [c] := by
  cases l with
  | nil => cases hc
  | cons a t =>
    have ha : a = c := hall a (List.mem_cons_self _ _)
    subst ha
    cases t with
    | nil => rfl
    | cons b t2 =>
      have hb : b = a := hall b (by simp)
      have hnotin := (List.nodup_cons.mp hnd).1
      subst hb
      exact absurd (List.mem_cons_self b t2) hnotin

/-- C2: noisy-OCR recovery returns a result exactly when the candidates
assembled over the entire input contain exactly one distinct checksum-valid
identifier, and then returns that candidate. -/
theorem c2_ocr_candidato_unico (texto : Str) (c : Str) :
    extrairCnpjOcrRuidoso texto = some c ↔
      validar_cnpj c = true ∧ c ∈ montagensTotais texto ∧
        ∀ d ∈ montagensTotais texto, validar_cnpj d = true → d = c := by
  unfold extrairCnpjOcrRuidoso
  by_cases ht : texto = []
  · rw [if_pos ht]
    subst ht
    have hmt : montagensTotais ([] : Str) = [] := rfl
    rw [hmt]
    simp
  · rw [if_neg ht]
    have hmem : ∀ x, x ∈ candidatosValidosOcr texto ↔
        x ∈ montagensTotais texto ∧ validar_cnpj x = true := by
      intro x
      unfold candidatosValidosOcr
      rw [mem_candidatos_fold]
      simp
    have hnd : (candidatosValidosOcr texto).Nodup :=
      nodup_candidatos_fold _ _ List.nodup_nil
    constructor
    · intro h
      by_cases hlen : (candidatosValidosOcr texto).length = 1
      · rw [if_pos hlen] at h
        obtain ⟨a, ha⟩ : ∃ a, candidatosValidosOcr texto = [a] := by
          rcases hl : candidatosValidosOcr texto with _ | ⟨a, _ | ⟨b, t2⟩⟩
          · rw [hl] at hlen; simp at hlen
          · exact ⟨a, rfl⟩
          · rw [hl] at hlen; simp at hlen
        rw [ha] at h
        have hac : a = c := by simpa using h
        subst hac
        have hcmem : a ∈ candidatosValidosOcr texto := by
          rw [ha]; exact List.mem_cons_self _ _
        obtain ⟨hm, hv⟩ := (hmem a).mp hcmem
        refine ⟨hv, hm, ?_⟩
        intro d hd hvd
        have hdc : d ∈ candidatosValidosOcr texto := (hmem d).mpr ⟨hd, hvd⟩
        rw [ha] at hdc
        simpa using hdc
      · rw [if_neg hlen] at h
        cases h
    · rintro ⟨hv, hm, huniq⟩
      have hc : c ∈ candidatosValidosOcr texto := (hmem c).mpr ⟨hm, hv⟩
      have hall : ∀ x ∈ candidatosValidosOcr texto, x = c := fun x hx =>
        huniq x ((hmem x).mp hx).1 ((hmem x).mp hx).2
      have h1 : candidatosValidosOcr texto = [c] :=
        lista_singleton_de_unico _ c hnd hc hall
      rw [h1]
      simp

theorem length_flatMap_const {α β : Type} (l : List α) (f : α → List β) (k : Nat)
    (h : ∀ a ∈ l, (f a).length = k) : (l.flatMap f).length = l.length * k := by
  induction l with
  | nil => simp
  | cons a t ih =>
    rw [List.flatMap_cons, List.length_append, h a (List.mem_cons_self _ _),
      ih fun b hb => h b (List.mem_cons_of_mem _ hb), List.length_cons]
    ring

theorem length_montagens (p1 p2 p3 p4 p5 : List Str) :
    (montagens p1 p2 p3 p4 p5).length =
      p1.length * (p2.length * (p3.length * (p4.length * p5.length))) := by
  unfold montagens
  refine length_flatMap_const _ _ _ fun a _ => ?_
  refine length_flatMap_const _ _ _ fun b _ => ?_
  refine length_flatMap_const _ _ _ fun c _ => ?_
  refine length_flatMap_const _ _ _ fun d _ => ?_
  simp

theorem length_tentativasGrupos (g1 g2 g3 g4 g5 : Str) :
    (tentativasGrupos (g1, g2, g3, g4, g5)).length =
      min LIMITE_TENTATIVAS ((subsequencias g1 2 28).length *
        ((subsequencias g2 3 56).length * ((subsequencias g3 3 56).length *
          ((subsequencias g4 4 70).length * (subsequencias g5 2 28).length)))) := by
  unfold tentativasGrupos
  rw [List.length_take, length_montagens]

/-- C3 counterexample: a text with two maximal formatted tokens assembles
45000 candidates for each token — 90000 in total — because the attempt
counter is reset per token candidate and its `break` leaves only the inner
loop, never the whole search. -/
theorem c3_counterexample : 45000 < totalTentativasOcr textoC3 := by
  have htok : tokensOcr textoC3 = [tokenC3a, tokenC3b] := by decide
  have hga : analisaCandidato tokenC3a = some ("12345678".toList, "12345678".toList,
      "12345678".toList, "12345678".toList, "12345678".toList) := by decide
  have hgb : analisaCandidato tokenC3b = some ("23456789".toList, "12345678".toList,
      "12345678".toList, "12345678".toList, "12345678".toList) := by decide
  have hsub2 : (subsequencias "12345678".toList 2 28).length = 28 := by decide
  have hsub3 : (subsequencias "12345678".toList 3 56).length = 56 := by decide
  have hsub4 : (subsequencias "12345678".toList 4 70).length = 70 := by decide
  have hsub2b : (subsequencias "23456789".toList 2 28).length = 28 := by decide
  have hA : (tentativasGrupos ("12345678".toList, "12345678".toList, "12345678".toList,
      "12345678".toList, "12345678".toList)).length = 45000 := by
    rw [length_tentativasGrupos, hsub2, hsub3, hsub4]
    decide
  have hB : (tentativasGrupos ("23456789".toList, "12345678".toList, "12345678".toList,
      "12345678".toList, "12345678".toList)).length = 45000 := by
    rw [length_tentativasGrupos, hsub2b, hsub3, hsub4, hsub2]
    decide
  have hproc1 : (processaCandidatos [tokenC3a]).length = 45000 := by
    unfold processaCandidatos
    rw [hga]
    dsimp only
    rw [if_pos (by rw [hA]; decide)]
    exact hA
  have hproc2 : (processaCandidatos [tokenC3b]).length = 45000 := by
    unfold processaCandidatos
    rw [hgb]
    dsimp only
    rw [if_pos (by rw [hB]; decide)]
    exact hB
  have hc1 : candidatosDoToken none tokenC3a = [tokenC3a] := rfl
  have hc2 : candidatosDoToken (some tokenC3a) tokenC3b = [tokenC3b] := by decide
  have htotal : totalTentativasOcr textoC3 = 90000 := by
    unfold totalTentativasOcr montagensTotais
    rw [htok]
    show (processaCandidatos (candidatosDoToken none tokenC3a) ++
      (processaCandidatos (candidatosDoToken (some tokenC3a) tokenC3b) ++
        percorreTokens (some tokenC3b) [])).length = 90000
    rw [hc1, hc2]
    show (processaCandidatos [tokenC3a] ++ (processaCandidatos [tokenC3b] ++ [])).length = 90000
    rw [List.append_nil, List.length_append, hproc1, hproc2]
  omega

theorem processaCandidatos_limite (cands : List Str) :
    (processaCandidatos cands).length ≤ 45000 * cands.length := by
  induction cands with
  | nil => simp [processaCandidatos]
  | cons tc resto ih =>
    simp only [processaCandidatos]
    cases hga : analisaCandidato tc with
    | none =>
      simp only [List.length_cons]
      calc (processaCandidatos resto).length ≤ 45000 * resto.length := ih
        _ ≤ 45000 * (resto.length + 1) := by omega
    | some gs =>
      obtain ⟨g1, g2, g3, g4, g5⟩ := gs
      have hlim : (tentativasGrupos (g1, g2, g3, g4, g5)).length ≤ 45000 := by
        unfold tentativasGrupos
        rw [List.length_take]
        exact Nat.min_le_left _ _
      dsimp only
      split
      · simp only [List.length_cons]
        omega
      · rw [List.length_append]
        simp only [List.length_cons]
        omega

theorem candidatosDoToken_tamanho (anterior : Option Str) (token : Str) :
    (candidatosDoToken anterior token).length ≤ 2 := by
  unfold candidatosDoToken
  cases anterior with
  | none => simp
  | some prev =>
    dsimp only
    split <;> simp

theorem percorreTokens_limite (anterior : Option Str) (tokens : List Str) :
    (percorreTokens anterior tokens).length ≤ 90000 * tokens.length := by
  induction tokens generalizing anterior with
  | nil => simp [percorreTokens]
  | cons token resto ih =>
    simp only [percorreTokens, List.length_append, List.length_cons]
    have h1 := processaCandidatos_limite (candidatosDoToken anterior token)
    have h2 := candidatosDoToken_tamanho anterior token
    have h3 := ih (some token)
    have h4 : (processaCandidatos (candidatosDoToken anterior token)).length ≤ 90000 := by
      calc (processaCandidatos (candidatosDoToken anterior token)).length
          ≤ 45000 * (candidatosDoToken anterior token).length := h1
        _ ≤ 45000 * 2 := by omega
        _ = 90000 := by norm_num
    omega

/-- C3 (amended): the 45000-candidate ceiling is enforced per formatted
token candidate — each token candidate assembles at most 45000 candidates —
so the whole input is bounded only by 90000 candidates per token (two
candidates per token), not by a single whole-input ceiling. -/
theorem c3_limite_por_token (texto : Str) :
    totalTentativasOcr texto ≤ 90000 * (tokensOcr texto).length ∧
    ∀ gs : Str × Str × Str × Str × Str,
      (tentativasGrupos gs).length ≤ LIMITE_TENTATIVAS := by
  constructor
  · exact percorreTokens_limite none (tokensOcr texto)
  · rintro ⟨g1, g2, g3, g4, g5⟩
    unfold tentativasGrupos
    rw [List.length_take]
    exact Nat.min_le_left _ _
